import Mathlib

/-!
Verification development for the `captain_cmd` build pipeline, a pair of
Python scripts (`build_with_pyinstaller.py` and `build.py`) that package an
application with one of two backends (PyInstaller / Nuitka), normalize the
backend output into a canonical artifact directory and seed a configuration
file into it.

The scripts only manipulate the filesystem and spawn one backend subprocess,
so the embedding models the filesystem explicitly: a filesystem is a list of
entries, each entry a path (list of components), a directory flag, and a file
content.  `shutil.rmtree`, `os.remove`, `shutil.move`, `os.makedirs` and
`shutil.copy2` become list transformations.  Exceptions that the Python code
lets escape (including `sys.exit`) are modelled with `Except`; exceptions the
code catches are handled in the corresponding branch.  The environment facts
the scripts depend on (is the backend package importable, the exit code of
the spawned subprocess, what the subprocess writes) are parameters.

Each pipeline function additionally records the messages it prints (`log`)
and, for the top-level stage functions, a tag in an event trace (`trace`);
this instrumentation is the only departure from a literal transcription.
Quote characters inside the original printed messages are elided.
-/

namespace CaptainBuild

/-- A filesystem path, as a list of components (the result of splitting the
Python path strings on the separator; `os.path.join` is list append). -/
abbrev Path := List String

/-- One filesystem object: its path, whether it is a directory, and (for
files) its content. -/
structure Entry where
  path : Path
  isDir : Bool
  content : String
deriving Repr, DecidableEq

/-- A filesystem state: the list of all existing objects.  A well-formed
state (`wellFormedFS`) lists every directory explicitly. -/
abbrev FS := List Entry

/-- Render a path the way the Python scripts print it. -/
def showPath (p : Path) : String := String.intercalate "/" p

/-- `os.path.exists`. -/
def pathExistsB (fs : FS) (p : Path) : Bool :=
  fs.any (fun e => e.path == p)

/-- `os.path.isdir`. -/
def isDirFS (fs : FS) (p : Path) : Bool :=
  fs.any (fun e => e.path == p && e.isDir)

/-- `os.path.isfile`. -/
def isFileFS (fs : FS) (p : Path) : Bool :=
  fs.any (fun e => e.path == p && !e.isDir)

/-- `shutil.rmtree p`: removes the directory `p` and everything below it. -/
def rmtreeFS (p : Path) (fs : FS) : FS :=
  fs.filter (fun e => !(p.isPrefixOf e.path))

/-- `os.remove p`: removes the file at `p`. -/
def removeFileFS (p : Path) (fs : FS) : FS :=
  fs.filter (fun e => !(e.path == p && !e.isDir))

/-- Re-root a path lying below `src` to lie below `dst`. -/
def relocate (src dst p : Path) : Path := dst ++ p.drop src.length

/-- `shutil.move src dst` in the situation the scripts use it (the
destination has just been cleared, so the move is a rename): every object at
or below `src` is re-rooted at `dst`. -/
def moveFS (src dst : Path) (fs : FS) : FS :=
  fs.map (fun e =>
    if src.isPrefixOf e.path then { e with path := relocate src dst e.path } else e)

/-- The nonempty ascending chain of initial segments of `p` (every ancestor
of `p`, then `p` itself). -/
def ancestorChain (p : Path) : List Path :=
  (List.range p.length).map (fun i => p.take (i + 1))

/-- Walk a chain of directories, creating the missing ones; a segment that
already exists as a file raises, and the raise keeps the directories created
so far (`.error` carries the partially-updated state). -/
def makedirsGo : List Path → FS → Except FS FS
  | [], fs => .ok fs
  | q :: rest, fs =>
    if isFileFS fs q then .error fs
    else if isDirFS fs q then makedirsGo rest fs
    else makedirsGo rest (fs ++ [⟨q, true, ""⟩])

/-- `os.makedirs p` with `exist_ok` set: create every missing directory along
`p`; raises when some segment of the chain already exists as a file. -/
def makedirsFS (p : Path) (fs : FS) : Except FS FS :=
  makedirsGo (ancestorChain p) fs

/-- Overwrite (or create) the file at `p` with content `c`. -/
def writeFileFS (p : Path) (c : String) (fs : FS) : FS :=
  removeFileFS p fs ++ [⟨p, false, c⟩]

/-- `shutil.copy2 src dst`: raises (`.error`) when `src` is not a regular
file, or when `dst` does not exist and its parent directory is missing; when
`dst` is an existing directory the source is copied into it under its own
base name; otherwise the file `dst` is written. -/
def copy2FS (src dst : Path) (fs : FS) : Except Unit FS :=
  match fs.find? (fun e => e.path == src && !e.isDir) with
  | none => .error ()
  | some e =>
    if isDirFS fs dst then
      .ok (writeFileFS (dst ++ [src.getLastD ""]) e.content fs)
    else if isFileFS fs dst then
      .ok (writeFileFS dst e.content fs)
    else if dst.length == 1 || isDirFS fs dst.dropLast then
      .ok (writeFileFS dst e.content fs)
    else .error ()

/-- Python `t.endswith(".app")`, on the character list of `t`. -/
def endsWithDotApp (t : String) : Bool :=
  List.isSuffixOf ".app".toList t.toList

/-- A filesystem state that can actually arise on disk: at most one object
per path, and every proper nonempty ancestor of an object exists and is a
directory. -/
def wellFormedFS (fs : FS) : Prop :=
  (∀ e₁ ∈ fs, ∀ e₂ ∈ fs, e₁.path = e₂.path → e₁ = e₂) ∧
  (∀ e ∈ fs, ∀ p ∈ ancestorChain e.path, p ≠ e.path →
     ∃ d ∈ fs, d.path = p ∧ d.isDir = true)

instance (fs : FS) : Decidable (wellFormedFS fs) := by
  unfold wellFormedFS; infer_instance

/-- The five pipeline stages named by the specification. -/
inductive Stage where
  | ensurer
  | cleaner
  | invoker
  | normalizer
  | seeder
deriving Repr, DecidableEq

/-- The running state of a pipeline script: the filesystem, the printed
messages, and the trace of stages entered. -/
structure St where
  fs : FS
  log : List String
  trace : List Stage
deriving Repr, DecidableEq

/-- Append a printed message. -/
def logMsg (m : String) (s : St) : St := { s with log := s.log ++ [m] }

/-- Record entry into a pipeline stage. -/
def tagStage (t : Stage) (s : St) : St := { s with trace := s.trace ++ [t] }

/-- How a script run can terminate abnormally: `sys.exit code`, or an
uncaught exception (which the interpreter turns into a nonzero exit). -/
inductive Term where
  | exited (code : Nat) (s : St)
  | raised (s : St)
deriving Repr, DecidableEq

/-- Environment facts for the dependency-ensurer stage: whether the backend
package imports, and the exit code `pip install` would have. -/
structure EnsureEnv where
  installedAlready : Bool
  pipExitCode : Nat

/-- Environment facts for the backend subprocess: its exit code and the
filesystem transformation it performs (what the compiler writes). -/
structure SubEnv where
  exitCode : Nat
  effect : FS → FS

/-! ## `build_with_pyinstaller.py` (namespace `BWP`) -/

namespace BWP

/-- `APP_NAME` from `build_with_pyinstaller.py`. -/
def APP_NAME : String := "captain_cmd"

/-- `OUTPUT_DIR = ".build"`. -/
def OUTPUT_DIR : Path := [".build"]

/-- `WORK_DIR = os.path.join(OUTPUT_DIR, "pyinstaller-work")`. -/
def WORK_DIR : Path := OUTPUT_DIR ++ ["pyinstaller-work"]

/-- `SPEC_DIR = OUTPUT_DIR`. -/
def SPEC_DIR : Path := OUTPUT_DIR

/-- `COLLECT_ALL_PACKAGES` from `build_with_pyinstaller.py`. -/
def COLLECT_ALL_PACKAGES : List String :=
  ["agent", "chat", "tools", "utils",
   "langchain", "langchain_core", "langchain_community", "langgraph",
   "deepagents", "langchain_deepseek", "langchain_openai", "langchain_ollama",
   "langchain_gemini", "langchain_anthropic", "langchain_groq",
   "langchain_mcp_adapters",
   "mcp", "pydantic", "pydantic_core", "httpx", "openai", "anthropic",
   "rich", "aiosqlite", "tavily", "langgraph_checkpoint_sqlite",
   "prompt_toolkit"]

/-- The list of paths `clean` iterates over. -/
def cleanTargets : List Path :=
  [OUTPUT_DIR, ["build"], ["dist"], ["main.dist"], ["main.app"]]

/-- One iteration of the loop body of `clean`: directory ⇒ `shutil.rmtree`
(with `ignore_errors`), file ⇒ `os.remove` (in a `try`), otherwise skip. -/
def cleanStep (s : St) (p : Path) : St :=
  if isDirFS s.fs p then
    { s with fs := rmtreeFS p s.fs,
             log := s.log ++ ["    Removed directory " ++ showPath p] }
  else if isFileFS s.fs p then
    { s with fs := removeFileFS p s.fs,
             log := s.log ++ ["    Removed file " ++ showPath p] }
  else s

/-- `clean` from `build_with_pyinstaller.py`. -/
def clean (s : St) : St :=
  cleanTargets.foldl cleanStep
    (logMsg "[*] Cleaning up previous builds..." (tagStage .cleaner s))

/-- `ensure_pyinstaller_installed`: returns whether the installer was
invoked; a failing `pip install` is an uncaught `CalledProcessError`
(`.error`). -/
def ensure_pyinstaller_installed (env : EnsureEnv) (s : St) : Except St (Bool × St) :=
  let s := tagStage .ensurer s
  if env.installedAlready then .ok (false, s)
  else
    let s := logMsg "[*] PyInstaller not found. Installing..." s
    if env.pipExitCode == 0 then .ok (true, s) else .error s

/-- `app_bundle_src = os.path.join(OUTPUT_DIR, f"{APP_NAME}.app")`. -/
def app_bundle_src : Path := OUTPUT_DIR ++ [APP_NAME ++ ".app"]

/-- `folder_src = os.path.join(OUTPUT_DIR, APP_NAME)`. -/
def folder_src : Path := OUTPUT_DIR ++ [APP_NAME]

/-- `app_target = os.path.join(OUTPUT_DIR, "main.app")`. -/
def app_target : Path := OUTPUT_DIR ++ ["main.app"]

/-- `folder_target = os.path.join(OUTPUT_DIR, "main.dist")`. -/
def folder_target : Path := OUTPUT_DIR ++ ["main.dist"]

/-- `_replace_path`: delete whatever occupies `p` (directory or file), so a
subsequent move cannot conflict. -/
def replace_path (p : Path) (fs : FS) : FS :=
  if isDirFS fs p then rmtreeFS p fs
  else if isFileFS fs p then removeFileFS p fs
  else fs

/-- `normalize_output_directory`: probe for `captain_cmd.app` first, then
`captain_cmd`; move whichever exists onto its canonical name, clearing the
target first; `none` when neither exists. -/
def normalize_output_directory (fs : FS) : Option Path × FS :=
  if pathExistsB fs app_bundle_src then
    (some app_target, moveFS app_bundle_src app_target (replace_path app_target fs))
  else if pathExistsB fs folder_src then
    (some folder_target, moveFS folder_src folder_target (replace_path folder_target fs))
  else
    (none, fs)

/-- The PyInstaller command line built by `build`. -/
def cmd : List String :=
  ["python", "-m", "PyInstaller", "--clean", "--noconfirm", "--console",
   "--name=" ++ APP_NAME, "--distpath=" ++ showPath OUTPUT_DIR,
   "--workpath=" ++ showPath WORK_DIR, "--specpath=" ++ showPath SPEC_DIR]
  ++ COLLECT_ALL_PACKAGES.map (fun p => "--collect-all=" ++ p)
  ++ ["main.py"]

/-- `build` from `build_with_pyinstaller.py`: make the output and work
directories, run the backend subprocess, `sys.exit 1` on a nonzero exit,
otherwise normalize the output and return the normalized path. -/
def build (env : SubEnv) (s : St) : Except Term (Option Path × St) :=
  let s := logMsg "[+] Starting PyInstaller build..." (tagStage .invoker s)
  match makedirsFS OUTPUT_DIR s.fs with
  | .error fsp => .error (.raised { s with fs := fsp })
  | .ok fs1 =>
    match makedirsFS WORK_DIR fs1 with
    | .error fsp => .error (.raised { s with fs := fsp })
    | .ok fs2 =>
      let s := logMsg ("[>] Command: " ++ String.intercalate " " cmd) { s with fs := fs2 }
      let s := { s with fs := env.effect s.fs }
      if env.exitCode == 0 then
        let s := tagStage .normalizer s
        match normalize_output_directory s.fs with
        | (some p, fs3) =>
          .ok (some p, logMsg ("[SUCCESS] Build finished. Output: " ++ showPath p)
                 { s with fs := fs3 })
        | (none, fs3) =>
          .ok (none, logMsg "[WARNING] Unable to locate PyInstaller output folder."
                 { s with fs := fs3 })
      else
        .error (.exited 1 (logMsg "[ERROR] PyInstaller build failed." s))

/-- `config_template = "config.example.toml"`. -/
def config_template : Path := ["config.example.toml"]

/-- `post_build` from `build_with_pyinstaller.py`.  A missing artifact or a
missing template is a logged warning and an early return; otherwise the
template is copied to `config.toml` inside the artifact, into
`Contents/MacOS` when the artifact is an `.app` bundle that contains that
directory.  `os.makedirs` or `shutil.copy2` raising escapes uncaught
(`.error`). -/
def post_build (dist_path : Option Path) (s : St) : Except St St :=
  let s := tagStage .seeder s
  match dist_path with
  | none => .ok (logMsg "[WARNING] Dist directory missing, skip post-build tasks." s)
  | some p =>
    if !pathExistsB s.fs p then
      .ok (logMsg "[WARNING] Dist directory missing, skip post-build tasks." s)
    else
      let s := logMsg "[*] Running post-build tasks..." s
      if !pathExistsB s.fs config_template then
        .ok (logMsg ("    [WARNING] Template file not found: " ++ showPath config_template) s)
      else
        let macos_dir := p ++ ["Contents", "MacOS"]
        let target_dir :=
          if endsWithDotApp (p.getLastD "") && pathExistsB s.fs macos_dir
          then macos_dir else p
        match makedirsFS target_dir s.fs with
        | .error fsp => .error { s with fs := fsp }
        | .ok fs1 =>
          match copy2FS config_template (target_dir ++ ["config.toml"]) fs1 with
          | .error _ => .error { s with fs := fs1 }
          | .ok fs2 =>
            let s := logMsg ("    Copied template " ++ showPath config_template
                               ++ " to " ++ showPath (target_dir ++ ["config.toml"]))
                       { s with fs := fs2 }
            .ok (logMsg ("\n[DONE] All done! Build output is in " ++ showPath p ++ ".") s)

/-- The `__main__` block of `build_with_pyinstaller.py`:
ensure, clean, build, post-build. -/
def main (eenv : EnsureEnv) (senv : SubEnv) (s : St) : Except Term St :=
  match ensure_pyinstaller_installed eenv s with
  | .error s1 => .error (.raised s1)
  | .ok (_, s1) =>
    let s2 := clean s1
    match build senv s2 with
    | .error t => .error t
    | .ok (output_path, s3) =>
      match post_build output_path s3 with
      | .error s4 => .error (.raised s4)
      | .ok s5 => .ok s5

end BWP

/-! ## `build.py` (namespace `NB`, the Nuitka pipeline) -/

namespace NB

/-- `dirs_to_remove` from `build.py`. -/
def dirs_to_remove : List Path :=
  [[".build"], ["build"], ["main.build"], ["main.dist"], ["main.onefile-build"]]

/-- One iteration of the loop body of `clean` in `build.py`: when the path
exists, `shutil.rmtree` it inside a `try`; in this model the only way
`rmtree` fails is when the path is not a directory, which lands in the
logged `except` branch. -/
def cleanStep (s : St) (p : Path) : St :=
  if pathExistsB s.fs p then
    if isDirFS s.fs p then
      { s with fs := rmtreeFS p s.fs, log := s.log ++ ["    Removed " ++ showPath p] }
    else
      { s with log := s.log ++ ["    Failed to remove " ++ showPath p] }
  else s

/-- `clean` from `build.py`. -/
def clean (s : St) : St :=
  dirs_to_remove.foldl cleanStep
    (logMsg "[*] Cleaning up previous builds..." (tagStage .cleaner s))

/-- `get_os_specific_flags`: only Darwin contributes a flag. -/
def get_os_specific_flags (system : String) : List String :=
  if system == "Darwin" then ["--macos-create-app-bundle"] else []

/-- The fixed part of the Nuitka command line built by `build`. -/
def baseCmd : List String :=
  ["python", "-m", "nuitka", "--standalone", "--assume-yes-for-downloads",
   "--output-dir=.build", "--remove-output", "--show-progress", "--show-memory",
   "--follow-imports",
   "--include-package=utils", "--include-package=chat",
   "--include-package=agent", "--include-package=tools",
   "--include-package=langchain", "--include-package=langchain_core",
   "--include-package=langchain_core.load",
   "--include-module=langchain_core.load.dump",
   "--include-module=langchain_core.load.load",
   "--include-module=langchain_core.load.serializable",
   "--include-package=langchain_core.runnables",
   "--include-package=langchain_core.tracers",
   "--include-package=langchain_core.callbacks",
   "--include-package=langgraph", "--include-package=deepagents",
   "--include-package=langchain_community",
   "--include-package=langchain_deepseek", "--include-package=langchain_openai",
   "--include-package=langchain_ollama", "--include-package=langchain_gemini",
   "--include-package=langchain_anthropic", "--include-package=langchain_groq",
   "--include-package=mcp", "--include-package=langchain_mcp_adapters",
   "--include-package=pydantic", "--include-package=pydantic_core",
   "--include-package=httpx", "--include-package=openai",
   "--include-package=anthropic", "--include-package=rich",
   "--include-package=aiosqlite",
   "--noinclude-pytest-mode=nofollow", "--noinclude-setuptools-mode=nofollow",
   "--nofollow-import-to=aiosqlite.tests", "--nofollow-import-to=unittest",
   "--nofollow-import-to=doctest"]

/-- The full Nuitka command line: base flags, OS-specific flags, entry file. -/
def cmd (system : String) : List String :=
  baseCmd ++ get_os_specific_flags system ++ ["main.py"]

/-- `build` from `build.py`: run the backend subprocess; `sys.exit 1` on a
nonzero exit.  Unlike the PyInstaller script there is no output
normalization here. -/
def build (system : String) (env : SubEnv) (s : St) : Except Term St :=
  let s := logMsg "[+] Starting Nuitka build..." (tagStage .invoker s)
  let s := logMsg "[*] Using Nuitka automatic import tracking (--follow-imports)" s
  let s := logMsg "    This will automatically detect and include all required packages" s
  let s := logMsg ("[>] Command: " ++ String.intercalate " " (cmd system)) s
  let s := { s with fs := env.effect s.fs }
  if env.exitCode == 0 then
    .ok (logMsg "[SUCCESS] Build finished successfully!" s)
  else
    .error (.exited 1 (logMsg "[ERROR] Build failed!" s))

/-- `dist_dir = os.path.join(".build", "main.dist")`. -/
def dist_dir0 : Path := [".build", "main.dist"]

/-- `possible_configs = "config.example.toml"`. -/
def possible_configs : Path := ["config.example.toml"]

/-- `post_build` from `build.py`: if `.build/main.dist` is missing, warn and
fall back to `.build`; copy the template to `config.toml` in the chosen
directory when the template exists (copy failures are caught and logged),
otherwise warn. -/
def post_build (s : St) : St :=
  let s := logMsg "[*] Running post-build tasks..." (tagStage .seeder s)
  let pr :=
    if pathExistsB s.fs dist_dir0 then (dist_dir0, s)
    else (([".build"] : Path),
      logMsg ("    [WARNING] Dist directory " ++ showPath dist_dir0
                ++ " not found. Did the build fail or using onefile mode?") s)
  let dist_dir := pr.1
  let s := pr.2
  if pathExistsB s.fs possible_configs then
    let target_config := dist_dir ++ ["config.toml"]
    match copy2FS possible_configs target_config s.fs with
    | .ok fs1 =>
      let s := logMsg ("    Copied template " ++ showPath possible_configs
                         ++ " to " ++ showPath target_config) { s with fs := fs1 }
      logMsg ("\n[DONE] All done! Build output is in " ++ showPath dist_dir ++ " folder.") s
    | .error _ =>
      let s := logMsg "    Failed to copy config file." s
      logMsg ("\n[DONE] All done! Build output is in " ++ showPath dist_dir ++ " folder.") s
  else
    let s := logMsg ("    [WARNING] No example config file found: "
                       ++ showPath possible_configs) s
    logMsg ("\n[DONE] All done! Build output is in " ++ showPath dist_dir ++ " folder.") s

/-- The dependency check inlined in the `__main__` block of `build.py`:
`import nuitka`, installing on `ImportError`; a failing install is an
uncaught `CalledProcessError` (`.error`). -/
def ensure_nuitka_installed (env : EnsureEnv) (s : St) : Except St (Bool × St) :=
  let s := tagStage .ensurer s
  if env.installedAlready then .ok (false, s)
  else
    let s := logMsg "[*] Nuitka not installed. Installing..." s
    if env.pipExitCode == 0 then .ok (true, s) else .error s

/-- The `__main__` block of `build.py`: ensure, clean, build, post-build. -/
def main (system : String) (eenv : EnsureEnv) (senv : SubEnv) (s : St) : Except Term St :=
  match ensure_nuitka_installed eenv s with
  | .error s1 => .error (.raised s1)
  | .ok (_, s1) =>
    let s2 := clean s1
    match build system senv s2 with
    | .error t => .error t
    | .ok s3 => .ok (post_build s3)

end NB

/-! ## Derived definitions used by the proofs -/

/-- The filesystem effect of one iteration of `clean` in
`build_with_pyinstaller.py` (the log stripped away). -/
def BWP.cleanStepFS (fs : FS) (p : Path) : FS :=
  if isDirFS fs p then rmtreeFS p fs
  else if isFileFS fs p then removeFileFS p fs
  else fs

/-- The filesystem effect of one iteration of `clean` in `build.py` (the log
stripped away). -/
def NB.cleanStepFS (fs : FS) (p : Path) : FS :=
  if pathExistsB fs p then
    if isDirFS fs p then rmtreeFS p fs else fs
  else fs

/-- No object of either kind sits at `p`. -/
def goneAt (fs : FS) (p : Path) : Prop :=
  isDirFS fs p = false ∧ isFileFS fs p = false

/-- The filesystem at the end of a script run, whichever way it ended. -/
def finalFS : Except Term St → FS
  | .ok s => s.fs
  | .error (.exited _ s) => s.fs
  | .error (.raised s) => s.fs

/-- The stage trace at the end of a script run. -/
def finalTrace : Except Term St → List Stage
  | .ok s => s.trace
  | .error (.exited _ s) => s.trace
  | .error (.raised s) => s.trace

/-- The printed messages at the end of a script run. -/
def finalLog : Except Term St → List String
  | .ok s => s.log
  | .error (.exited _ s) => s.log
  | .error (.raised s) => s.log

/-- Did the run complete normally (process exit status 0)? -/
def isOkRun : Except Term St → Bool
  | .ok _ => true
  | .error _ => false

/-- The stage trace of a run that completed normally. -/
def okTrace : Except Term St → Option (List Stage)
  | .ok s => some s.trace
  | .error _ => none

/-- The filesystem after the PyInstaller seeder stage, raised or not. -/
def seederFS : Except St St → FS
  | .ok s => s.fs
  | .error s => s.fs

/-- Did the PyInstaller seeder stage finish without raising? -/
def seederIsOk : Except St St → Bool
  | .ok _ => true
  | .error _ => false

/-- The filesystem carried by a `makedirs` result, raised or not. -/
def exceptFS : Except FS FS → FS
  | .ok g => g
  | .error g => g

/-- The filesystem at the moment a run terminated abnormally. -/
def termFS : Term → FS
  | .exited _ s => s.fs
  | .raised s => s.fs

/-- The log after the PyInstaller seeder stage, raised or not. -/
def seederLog : Except St St → List String
  | .ok s => s.log
  | .error s => s.log

/-- The workspace as `build` leaves it just before spawning the backend:
cleaned, with the output and work directories created. -/
def BWP.preparedFS (fs : FS) : FS :=
  BWP.cleanTargets.foldl BWP.cleanStepFS fs
    ++ [⟨BWP.OUTPUT_DIR, true, ""⟩, ⟨BWP.WORK_DIR, true, ""⟩]

/-- All filesystem objects sitting at the template path
`config.example.toml` (the template is unmodified iff this is unchanged). -/
def templateEntries (fs : FS) : FS :=
  fs.filter (fun e => e.path == ["config.example.toml"])

/-! ## Concrete fixture states used to instantiate the theorems -/

/-- A backend output root holding both output forms (`captain_cmd.app` and
`captain_cmd`), a stale object at the canonical bundle target, and the
template file. -/
def fsBundle : FS :=
  [⟨[".build"], true, ""⟩,
   ⟨[".build", "captain_cmd.app"], true, ""⟩,
   ⟨[".build", "captain_cmd.app", "Contents"], true, ""⟩,
   ⟨[".build", "captain_cmd"], true, ""⟩,
   ⟨[".build", "captain_cmd", "exe"], false, "EXE"⟩,
   ⟨[".build", "main.app"], true, ""⟩,
   ⟨[".build", "main.app", "stale"], false, "OLD"⟩,
   ⟨["config.example.toml"], false, "TEMPLATE"⟩]

/-- A backend output root holding only the flat output form. -/
def fsFlat : FS :=
  [⟨[".build"], true, ""⟩,
   ⟨[".build", "captain_cmd"], true, ""⟩,
   ⟨[".build", "captain_cmd", "exe"], false, "EXE"⟩,
   ⟨["config.example.toml"], false, "TEMPLATE"⟩]

/-- An initial workspace holding only the template file. -/
def fsTemplateOnly : FS := [⟨["config.example.toml"], false, "TEMPLATE"⟩]

/-- An initial state of a script run on filesystem `fs`: nothing printed,
no stage entered yet. -/
def initSt (fs : FS) : St := ⟨fs, [], []⟩

/-- A backend effect that writes the flat PyInstaller output form
(`.build/captain_cmd`). -/
def effFlat : FS → FS :=
  fun fs => fs ++ [⟨[".build", "captain_cmd"], true, ""⟩,
                   ⟨[".build", "captain_cmd", "exe"], false, "EXE"⟩]

/-- A backend effect that writes the Nuitka standalone output form
(`.build/main.dist`). -/
def effDist : FS → FS :=
  fun fs => fs ++ [⟨[".build"], true, ""⟩,
                   ⟨[".build", "main.dist"], true, ""⟩,
                   ⟨[".build", "main.dist", "exe"], false, "EXE"⟩]

/-- A backend effect that writes nothing at all. -/
def effNothing : FS → FS := fun fs => fs

/-- A workspace holding only the output root and the template (the Nuitka
output `main.dist` is absent: a normalization miss). -/
def fsBuildOnly : FS :=
  [⟨[".build"], true, ""⟩, ⟨["config.example.toml"], false, "TEMPLATE"⟩]

/-- A workspace whose normalized artifact is an `.app` bundle that does not
contain a `Contents/MacOS` directory. -/
def fsAppNoMacos : FS :=
  [⟨[".build"], true, ""⟩,
   ⟨[".build", "main.app"], true, ""⟩,
   ⟨["config.example.toml"], false, "TEMPLATE"⟩]

/-- A workspace whose normalized artifact is an `.app` bundle containing the
`Contents/MacOS` directory. -/
def fsAppWithMacos : FS :=
  [⟨[".build"], true, ""⟩,
   ⟨[".build", "main.app"], true, ""⟩,
   ⟨[".build", "main.app", "Contents"], true, ""⟩,
   ⟨[".build", "main.app", "Contents", "MacOS"], true, ""⟩,
   ⟨["config.example.toml"], false, "TEMPLATE"⟩]

/-! ## Basic lemmas about the filesystem model -/

theorem pathExistsB_iff {fs : FS} {p : Path} :
    pathExistsB fs p = true ↔ ∃ e ∈ fs, e.path = p := by
  simp [pathExistsB, List.any_eq_true]

theorem isDirFS_iff {fs : FS} {p : Path} :
    isDirFS fs p = true ↔ ∃ e ∈ fs, e.path = p ∧ e.isDir = true := by
  simp [isDirFS, List.any_eq_true]

theorem isFileFS_iff {fs : FS} {p : Path} :
    isFileFS fs p = true ↔ ∃ e ∈ fs, e.path = p ∧ e.isDir = false := by
  simp [isFileFS, List.any_eq_true]

theorem pathExistsB_of_isFileFS {fs : FS} {p : Path}
    (h : isFileFS fs p = true) : pathExistsB fs p = true := by
  obtain ⟨e, he, hp, -⟩ := isFileFS_iff.mp h
  exact pathExistsB_iff.mpr ⟨e, he, hp⟩

theorem pathExistsB_of_isDirFS {fs : FS} {p : Path}
    (h : isDirFS fs p = true) : pathExistsB fs p = true := by
  obtain ⟨e, he, hp, -⟩ := isDirFS_iff.mp h
  exact pathExistsB_iff.mpr ⟨e, he, hp⟩

theorem mem_rmtreeFS {p : Path} {fs : FS} {e : Entry} :
    e ∈ rmtreeFS p fs ↔ e ∈ fs ∧ ¬ p <+: e.path := by
  simp only [rmtreeFS, List.mem_filter, Bool.not_eq_eq_eq_not, Bool.not_true,
    ← Bool.not_eq_true, List.isPrefixOf_iff_prefix]

theorem mem_removeFileFS {p : Path} {fs : FS} {e : Entry} :
    e ∈ removeFileFS p fs ↔ e ∈ fs ∧ ¬ (e.path = p ∧ e.isDir = false) := by
  simp only [removeFileFS, List.mem_filter, Bool.not_eq_eq_eq_not, Bool.not_true]
  constructor
  · rintro ⟨h1, h2⟩
    refine ⟨h1, ?_⟩
    rintro ⟨hp, hd⟩
    simp [hp, hd] at h2
  · rintro ⟨h1, h2⟩
    refine ⟨h1, ?_⟩
    by_cases hp : e.path = p
    · have hd : e.isDir = true := by
        cases hdir : e.isDir
        · exact absurd ⟨hp, hdir⟩ h2
        · rfl
      simp [hp, hd]
    · simp [hp]

theorem mem_moveFS {src dst : Path} {fs : FS} {e : Entry} :
    e ∈ moveFS src dst fs ↔
      ∃ e₀ ∈ fs,
        e = (if src <+: e₀.path
             then { e₀ with path := relocate src dst e₀.path } else e₀) := by
  simp only [moveFS, List.mem_map, List.isPrefixOf_iff_prefix]
  constructor
  · rintro ⟨e₀, h0, rfl⟩
    exact ⟨e₀, h0, by split <;> simp_all⟩
  · rintro ⟨e₀, h0, rfl⟩
    exact ⟨e₀, h0, by split <;> simp_all⟩

/-- Two paths of equal length that differ have no common extension. -/
theorem no_common_extension {src dst p : Path} (hlen : src.length = dst.length)
    (hne : src ≠ dst) : ¬ (src <+: p ∧ dst <+: p) := by
  rintro ⟨h1, h2⟩
  apply hne
  have e1 : p.take src.length = src := by
    obtain ⟨t, rfl⟩ := h1; simp
  have e2 : p.take dst.length = dst := by
    obtain ⟨t, rfl⟩ := h2; simp
  rw [← e1, ← e2, hlen]

/-- Every nonempty initial segment of a path is in its ancestor chain. -/
theorem mem_ancestorChain_of_isPrefixOf {p q : Path} (h : p <+: q) (hne : p ≠ []) :
    p ∈ ancestorChain q := by
  have hlen : p.length ≤ q.length := h.length_le
  have hpos : 0 < p.length := List.length_pos.mpr hne
  have htake : q.take p.length = p := by
    obtain ⟨t, rfl⟩ := h; simp
  simp only [ancestorChain, List.mem_map, List.mem_range]
  exact ⟨p.length - 1, by omega, by rw [Nat.sub_add_cancel hpos]; exact htake⟩

/-- On a well-formed filesystem, `_replace_path p` clears exactly the subtree
rooted at `p`: the file branch cannot have descendants and the
nonexistent-path branch has nothing below `p` either. -/
theorem replace_path_eq_rmtreeFS {p : Path} {fs : FS} (hp : p ≠ [])
    (wf : wellFormedFS fs) : BWP.replace_path p fs = rmtreeFS p fs := by
  unfold BWP.replace_path
  split
  · rfl
  next hdir =>
    have hnodir : ∀ d ∈ fs, d.path = p → d.isDir = true → False := by
      intro d hd hdp hdd
      exact absurd (isDirFS_iff.mpr ⟨d, hd, hdp, hdd⟩) (by simp [hdir])
    split
    next hfile =>
      obtain ⟨f, hf, hfp, hfd⟩ := isFileFS_iff.mp hfile
      unfold removeFileFS rmtreeFS
      apply List.filter_congr
      intro e he
      by_cases hep : e.path = p
      · have hef : e = f := wf.1 e he f hf (hep.trans hfp.symm)
        subst hef
        simp [hep, hfd, List.isPrefixOf_iff_prefix]
      · by_cases hpre : p <+: e.path
        · exfalso
          obtain ⟨d, hd, hdp, hdd⟩ :=
            wf.2 e he p (mem_ancestorChain_of_isPrefixOf hpre hp)
              (fun h => hep h.symm)
          exact hnodir d hd hdp hdd
        · have h1 : List.isPrefixOf p e.path = false :=
            Bool.eq_false_iff.mpr (fun hh => hpre (List.isPrefixOf_iff_prefix.mp hh))
          have h2 : (e.path == p) = false := by simp [hep]
          simp [h1, h2]
    next hfile =>
      have hnofile : ∀ f ∈ fs, f.path = p → f.isDir = false → False := by
        intro f hf hfp hfd
        exact absurd (isFileFS_iff.mpr ⟨f, hf, hfp, hfd⟩) (by simp [hfile])
      symm
      unfold rmtreeFS
      apply List.filter_eq_self.mpr
      intro e he
      suffices h : ¬ p <+: e.path by
        have h1 : List.isPrefixOf p e.path = false :=
          Bool.eq_false_iff.mpr (fun hh => h (List.isPrefixOf_iff_prefix.mp hh))
        simp [h1]
      intro hpre
      by_cases hep : e.path = p
      · cases hdd : e.isDir
        · exact hnofile e he hep hdd
        · exact hnodir e he hep hdd
      · obtain ⟨d, hd, hdp, hdd⟩ :=
          wf.2 e he p (mem_ancestorChain_of_isPrefixOf hpre hp)
            (fun h => hep h.symm)
        exact hnodir d hd hdp hdd

/-- Membership in the result of clearing `dst` and then moving the subtree at
`src` onto `dst` (the core of `normalize_output_directory`), for
incomparable `src` and `dst`: old objects away from both places survive
unchanged, old objects below `dst` are gone, and the objects below `src` are
exactly relocated. -/
theorem mem_move_rmtree {src dst : Path} {fs : FS} {e : Entry}
    (hinc : ∀ q : Path, ¬ (src <+: q ∧ dst <+: q)) :
    e ∈ moveFS src dst (rmtreeFS dst fs) ↔
      (e ∈ fs ∧ ¬ dst <+: e.path ∧ ¬ src <+: e.path) ∨
      (∃ e₀ ∈ fs, src <+: e₀.path ∧
        e = { e₀ with path := relocate src dst e₀.path }) := by
  rw [mem_moveFS]
  constructor
  · rintro ⟨e₀, h0, he⟩
    rw [mem_rmtreeFS] at h0
    by_cases hs : src <+: e₀.path
    · right
      exact ⟨e₀, h0.1, hs, by rw [he]; simp [hs]⟩
    · left
      rw [if_neg hs] at he
      subst he
      exact ⟨h0.1, h0.2, hs⟩
  · rintro (⟨hfs, hnd, hns⟩ | ⟨e₀, h0, hs, he⟩)
    · exact ⟨e, mem_rmtreeFS.mpr ⟨hfs, hnd⟩, by simp [hns]⟩
    · refine ⟨e₀, mem_rmtreeFS.mpr ⟨h0, fun hd => hinc e₀.path ⟨hs, hd⟩⟩, ?_⟩
      rw [if_pos hs]
      exact he

/-! ## Lemmas about the cleaner stages -/

theorem isDirFS_false_of_sub {fs fs' : FS} {p : Path}
    (hsub : ∀ e ∈ fs', e ∈ fs) (h : isDirFS fs p = false) :
    isDirFS fs' p = false := by
  cases hd : isDirFS fs' p with
  | false => rfl
  | true =>
    obtain ⟨e, he, hp, hdd⟩ := isDirFS_iff.mp hd
    exact absurd (isDirFS_iff.mpr ⟨e, hsub e he, hp, hdd⟩) (by simp [h])

theorem isFileFS_false_of_sub {fs fs' : FS} {p : Path}
    (hsub : ∀ e ∈ fs', e ∈ fs) (h : isFileFS fs p = false) :
    isFileFS fs' p = false := by
  cases hd : isFileFS fs' p with
  | false => rfl
  | true =>
    obtain ⟨e, he, hp, hdd⟩ := isFileFS_iff.mp hd
    exact absurd (isFileFS_iff.mpr ⟨e, hsub e he, hp, hdd⟩) (by simp [h])

theorem goneAt_of_sub {fs fs' : FS} {p : Path}
    (hsub : ∀ e ∈ fs', e ∈ fs) (h : goneAt fs p) : goneAt fs' p :=
  ⟨isDirFS_false_of_sub hsub h.1, isFileFS_false_of_sub hsub h.2⟩

theorem goneAt_of_not_exists {fs : FS} {p : Path}
    (h : pathExistsB fs p = false) : goneAt fs p := by
  constructor
  · cases hd : isDirFS fs p with
    | false => rfl
    | true =>
      obtain ⟨e, he, hp, _⟩ := isDirFS_iff.mp hd
      exact absurd (pathExistsB_iff.mpr ⟨e, he, hp⟩) (by simp [h])
  · cases hd : isFileFS fs p with
    | false => rfl
    | true =>
      obtain ⟨e, he, hp, _⟩ := isFileFS_iff.mp hd
      exact absurd (pathExistsB_iff.mpr ⟨e, he, hp⟩) (by simp [h])

theorem not_exists_of_goneAt {fs : FS} {p : Path}
    (h : goneAt fs p) : pathExistsB fs p = false := by
  cases hd : pathExistsB fs p with
  | false => rfl
  | true =>
    obtain ⟨e, he, hp⟩ := pathExistsB_iff.mp hd
    cases hdd : e.isDir with
    | false => exact absurd (isFileFS_iff.mpr ⟨e, he, hp, hdd⟩) (by simp [h.2])
    | true => exact absurd (isDirFS_iff.mpr ⟨e, he, hp, hdd⟩) (by simp [h.1])

theorem BWP.mem_cleanStepFS {fs : FS} {p : Path} {e : Entry}
    (h : e ∈ BWP.cleanStepFS fs p) : e ∈ fs := by
  unfold BWP.cleanStepFS at h
  split at h
  · exact (mem_rmtreeFS.mp h).1
  · split at h
    · exact (mem_removeFileFS.mp h).1
    · exact h

theorem BWP.cleanStepFS_goneAt (fs : FS) (p : Path) :
    goneAt (BWP.cleanStepFS fs p) p := by
  unfold BWP.cleanStepFS
  split
  next hdir =>
    have hnone : pathExistsB (rmtreeFS p fs) p = false := by
      cases hd : pathExistsB (rmtreeFS p fs) p with
      | false => rfl
      | true =>
        obtain ⟨e, he, hp⟩ := pathExistsB_iff.mp hd
        exact absurd (hp ▸ List.prefix_refl e.path) (mem_rmtreeFS.mp he).2
    exact goneAt_of_not_exists hnone
  next hdir =>
    split
    next hfile =>
      constructor
      · exact isDirFS_false_of_sub (fun e he => (mem_removeFileFS.mp he).1)
          (Bool.eq_false_iff.mpr hdir)
      · cases hd : isFileFS (removeFileFS p fs) p with
        | false => rfl
        | true =>
          obtain ⟨e, he, hp, hdd⟩ := isFileFS_iff.mp hd
          exact absurd ⟨hp, hdd⟩ (mem_removeFileFS.mp he).2
    next hfile =>
      exact ⟨Bool.eq_false_iff.mpr hdir, Bool.eq_false_iff.mpr hfile⟩

theorem BWP.cleanStepFS_id {fs : FS} {p : Path} (h : goneAt fs p) :
    BWP.cleanStepFS fs p = fs := by
  simp [BWP.cleanStepFS, h.1, h.2]

theorem BWP.mem_foldl_cleanStepFS {L : List Path} {fs : FS} {e : Entry}
    (h : e ∈ L.foldl BWP.cleanStepFS fs) : e ∈ fs := by
  induction L generalizing fs with
  | nil => exact h
  | cons q L ih => exact BWP.mem_cleanStepFS (ih h)

theorem BWP.foldl_cleanStepFS_goneAt {L : List Path} {fs : FS} {p : Path}
    (h : p ∈ L) : goneAt (L.foldl BWP.cleanStepFS fs) p := by
  induction L generalizing fs with
  | nil => cases h
  | cons q L ih =>
    simp only [List.foldl_cons]
    rcases List.mem_cons.mp h with rfl | hp
    · exact goneAt_of_sub (fun e he => BWP.mem_foldl_cleanStepFS he)
        (BWP.cleanStepFS_goneAt fs p)
    · exact ih hp

theorem BWP.foldl_cleanStepFS_id {L : List Path} {fs : FS}
    (h : ∀ p ∈ L, goneAt fs p) : L.foldl BWP.cleanStepFS fs = fs := by
  induction L with
  | nil => rfl
  | cons q L ih =>
    have hq : BWP.cleanStepFS fs q = fs := BWP.cleanStepFS_id (h q (by simp))
    simp only [List.foldl_cons, hq]
    exact ih (fun p hp => h p (by simp [hp]))

theorem BWP.cleanStep_fs (s : St) (p : Path) :
    (BWP.cleanStep s p).fs = BWP.cleanStepFS s.fs p := by
  by_cases h1 : isDirFS s.fs p = true
  · simp [BWP.cleanStep, BWP.cleanStepFS, h1]
  · by_cases h2 : isFileFS s.fs p = true <;>
      simp [BWP.cleanStep, BWP.cleanStepFS, h1, h2]

theorem BWP.foldl_cleanStep_fs (L : List Path) (s : St) :
    (L.foldl BWP.cleanStep s).fs = L.foldl BWP.cleanStepFS s.fs := by
  induction L generalizing s with
  | nil => rfl
  | cons q L ih =>
    simp only [List.foldl_cons, ih, BWP.cleanStep_fs]

theorem BWP.clean_fs (s : St) :
    (BWP.clean s).fs = BWP.cleanTargets.foldl BWP.cleanStepFS s.fs := by
  unfold BWP.clean
  rw [BWP.foldl_cleanStep_fs]
  rfl

theorem NB.nb_mem_cleanStepFS {fs : FS} {p : Path} {e : Entry}
    (h : e ∈ NB.cleanStepFS fs p) : e ∈ fs := by
  unfold NB.cleanStepFS at h
  split at h
  · split at h
    · exact (mem_rmtreeFS.mp h).1
    · exact h
  · exact h

theorem NB.cleanStepFS_noDir (fs : FS) (p : Path) :
    isDirFS (NB.cleanStepFS fs p) p = false := by
  unfold NB.cleanStepFS
  split
  · split
    next hdir =>
      cases hd : isDirFS (rmtreeFS p fs) p with
      | false => rfl
      | true =>
        obtain ⟨e, he, hp, _⟩ := isDirFS_iff.mp hd
        exact absurd (hp ▸ List.prefix_refl e.path) (mem_rmtreeFS.mp he).2
    next hdir => exact Bool.eq_false_iff.mpr hdir
  next hex =>
    exact (goneAt_of_not_exists (Bool.eq_false_iff.mpr hex)).1

theorem NB.nb_cleanStepFS_id {fs : FS} {p : Path} (h : isDirFS fs p = false) :
    NB.cleanStepFS fs p = fs := by
  unfold NB.cleanStepFS
  split
  · simp [h]
  · rfl

theorem NB.nb_mem_foldl_cleanStepFS {L : List Path} {fs : FS} {e : Entry}
    (h : e ∈ L.foldl NB.cleanStepFS fs) : e ∈ fs := by
  induction L generalizing fs with
  | nil => exact h
  | cons q L ih => exact NB.nb_mem_cleanStepFS (ih h)

theorem NB.foldl_cleanStepFS_noDir {L : List Path} {fs : FS} {p : Path}
    (h : p ∈ L) : isDirFS (L.foldl NB.cleanStepFS fs) p = false := by
  induction L generalizing fs with
  | nil => cases h
  | cons q L ih =>
    simp only [List.foldl_cons]
    rcases List.mem_cons.mp h with rfl | hp
    · exact isDirFS_false_of_sub (fun e he => NB.nb_mem_foldl_cleanStepFS he)
        (NB.cleanStepFS_noDir fs p)
    · exact ih hp

theorem NB.nb_foldl_cleanStepFS_id {L : List Path} {fs : FS}
    (h : ∀ p ∈ L, isDirFS fs p = false) : L.foldl NB.cleanStepFS fs = fs := by
  induction L with
  | nil => rfl
  | cons q L ih =>
    have hq : NB.cleanStepFS fs q = fs := NB.nb_cleanStepFS_id (h q (by simp))
    simp only [List.foldl_cons, hq]
    exact ih (fun p hp => h p (by simp [hp]))

theorem NB.nb_cleanStep_fs (s : St) (p : Path) :
    (NB.cleanStep s p).fs = NB.cleanStepFS s.fs p := by
  by_cases h1 : pathExistsB s.fs p = true
  · by_cases h2 : isDirFS s.fs p = true <;>
      simp [NB.cleanStep, NB.cleanStepFS, h1, h2]
  · simp [NB.cleanStep, NB.cleanStepFS, h1]

theorem NB.nb_foldl_cleanStep_fs (L : List Path) (s : St) :
    (L.foldl NB.cleanStep s).fs = L.foldl NB.cleanStepFS s.fs := by
  induction L generalizing s with
  | nil => rfl
  | cons q L ih =>
    simp only [List.foldl_cons, ih, NB.nb_cleanStep_fs]

theorem NB.nb_clean_fs (s : St) :
    (NB.clean s).fs = NB.dirs_to_remove.foldl NB.cleanStepFS s.fs := by
  unfold NB.clean
  rw [NB.nb_foldl_cleanStep_fs]
  rfl

/-! ## Well-formedness preservation and the prepared workspace -/

theorem prefix_of_mem_ancestorChain {q r : Path} (h : q ∈ ancestorChain r) :
    q <+: r := by
  simp only [ancestorChain, List.mem_map, List.mem_range] at h
  obtain ⟨i, -, rfl⟩ := h
  exact List.take_prefix _ _

theorem wellFormedFS_rmtreeFS {p : Path} {fs : FS} (wf : wellFormedFS fs) :
    wellFormedFS (rmtreeFS p fs) := by
  constructor
  · intro e₁ h₁ e₂ h₂ hp
    exact wf.1 e₁ (mem_rmtreeFS.mp h₁).1 e₂ (mem_rmtreeFS.mp h₂).1 hp
  · intro e he q hq hne
    obtain ⟨hefs, hnp⟩ := mem_rmtreeFS.mp he
    obtain ⟨d, hd, hdp, hdd⟩ := wf.2 e hefs q hq hne
    refine ⟨d, mem_rmtreeFS.mpr ⟨hd, ?_⟩, hdp, hdd⟩
    intro hpd
    exact hnp (List.IsPrefix.trans (hdp ▸ hpd) (prefix_of_mem_ancestorChain hq))

theorem wellFormedFS_removeFileFS {p : Path} {fs : FS} (wf : wellFormedFS fs) :
    wellFormedFS (removeFileFS p fs) := by
  constructor
  · intro e₁ h₁ e₂ h₂ hp
    exact wf.1 e₁ (mem_removeFileFS.mp h₁).1 e₂ (mem_removeFileFS.mp h₂).1 hp
  · intro e he q hq hne
    obtain ⟨hefs, -⟩ := mem_removeFileFS.mp he
    obtain ⟨d, hd, hdp, hdd⟩ := wf.2 e hefs q hq hne
    refine ⟨d, mem_removeFileFS.mpr ⟨hd, ?_⟩, hdp, hdd⟩
    rintro ⟨-, hdd'⟩
    rw [hdd] at hdd'
    cases hdd'

theorem BWP.wellFormedFS_cleanStepFS {fs : FS} {p : Path} (wf : wellFormedFS fs) :
    wellFormedFS (BWP.cleanStepFS fs p) := by
  unfold BWP.cleanStepFS
  split
  · exact wellFormedFS_rmtreeFS wf
  · split
    · exact wellFormedFS_removeFileFS wf
    · exact wf

theorem NB.nb_wellFormedFS_cleanStepFS {fs : FS} {p : Path} (wf : wellFormedFS fs) :
    wellFormedFS (NB.cleanStepFS fs p) := by
  unfold NB.cleanStepFS
  split
  · split
    · exact wellFormedFS_rmtreeFS wf
    · exact wf
  · exact wf

/-- After one cleaner iteration for target `p`, nothing remains at or below
`p` (on a well-formed workspace). -/
theorem BWP.cleanStepFS_no_under {fs : FS} {p : Path} (wf : wellFormedFS fs)
    (hp : p ≠ []) : ∀ e ∈ BWP.cleanStepFS fs p, ¬ p <+: e.path := by
  intro e he hpre
  unfold BWP.cleanStepFS at he
  split at he
  · exact (mem_rmtreeFS.mp he).2 hpre
  next hdir =>
    split at he
    next hfile =>
      obtain ⟨hefs, hnot⟩ := mem_removeFileFS.mp he
      by_cases hep : e.path = p
      · cases hdd : e.isDir
        · exact hnot ⟨hep, hdd⟩
        · exact absurd (isDirFS_iff.mpr ⟨e, hefs, hep, hdd⟩) (by simp [hdir])
      · obtain ⟨d, hd, hdp, hdd⟩ := wf.2 e hefs p
          (mem_ancestorChain_of_isPrefixOf hpre hp) (fun hh => hep hh.symm)
        exact absurd (isDirFS_iff.mpr ⟨d, hd, hdp, hdd⟩) (by simp [hdir])
    next hfile =>
      by_cases hep : e.path = p
      · cases hdd : e.isDir
        · exact absurd (isFileFS_iff.mpr ⟨e, he, hep, hdd⟩) (by simp [hfile])
        · exact absurd (isDirFS_iff.mpr ⟨e, he, hep, hdd⟩) (by simp [hdir])
      · obtain ⟨d, hd, hdp, hdd⟩ := wf.2 e he p
          (mem_ancestorChain_of_isPrefixOf hpre hp) (fun hh => hep hh.symm)
        exact absurd (isDirFS_iff.mpr ⟨d, hd, hdp, hdd⟩) (by simp [hdir])

theorem BWP.foldl_cleanStepFS_no_under {L : List Path} {fs : FS}
    (wf : wellFormedFS fs) (hne : ∀ p ∈ L, p ≠ []) :
    ∀ p ∈ L, ∀ e ∈ L.foldl BWP.cleanStepFS fs, ¬ p <+: e.path := by
  induction L generalizing fs with
  | nil => intro p hp; cases hp
  | cons q L ih =>
    intro p hp e he hpre
    simp only [List.foldl_cons] at he
    rcases List.mem_cons.mp hp with rfl | hp'
    · exact BWP.cleanStepFS_no_under wf (hne p (by simp)) e
        (BWP.mem_foldl_cleanStepFS he) hpre
    · exact ih (BWP.wellFormedFS_cleanStepFS wf)
        (fun r hr => hne r (by simp [hr])) p hp' e he hpre

theorem isFileFS_append {xs ys : FS} {p : Path} :
    isFileFS (xs ++ ys) p = (isFileFS xs p || isFileFS ys p) := by
  simp [isFileFS, List.any_append]

theorem isDirFS_append {xs ys : FS} {p : Path} :
    isDirFS (xs ++ ys) p = (isDirFS xs p || isDirFS ys p) := by
  simp [isDirFS, List.any_append]

/-- On a well-formed workspace, `build` creates the output root and the work
directory right after cleaning, in that order, and both creations succeed. -/
theorem BWP.prepared_eq {fs : FS} (wf : wellFormedFS fs) :
    makedirsFS BWP.OUTPUT_DIR (BWP.cleanTargets.foldl BWP.cleanStepFS fs) =
      .ok (BWP.cleanTargets.foldl BWP.cleanStepFS fs
             ++ [⟨BWP.OUTPUT_DIR, true, ""⟩]) ∧
    makedirsFS BWP.WORK_DIR
      (BWP.cleanTargets.foldl BWP.cleanStepFS fs ++ [⟨BWP.OUTPUT_DIR, true, ""⟩]) =
      .ok (BWP.preparedFS fs) := by
  have hgone : goneAt (BWP.cleanTargets.foldl BWP.cleanStepFS fs) BWP.OUTPUT_DIR :=
    BWP.foldl_cleanStepFS_goneAt (by simp [BWP.cleanTargets])
  have hunder : ∀ e ∈ BWP.cleanTargets.foldl BWP.cleanStepFS fs,
      ¬ BWP.OUTPUT_DIR <+: e.path :=
    BWP.foldl_cleanStepFS_no_under wf (by decide) BWP.OUTPUT_DIR
      (by simp [BWP.cleanTargets])
  have hworkfile : isFileFS (BWP.cleanTargets.foldl BWP.cleanStepFS fs)
      BWP.WORK_DIR = false := by
    cases hd : isFileFS (BWP.cleanTargets.foldl BWP.cleanStepFS fs) BWP.WORK_DIR with
    | false => rfl
    | true =>
      obtain ⟨e, he, hp, -⟩ := isFileFS_iff.mp hd
      exact absurd (by rw [hp]; exact ⟨["pyinstaller-work"], rfl⟩) (hunder e he)
  have hworkdir : isDirFS (BWP.cleanTargets.foldl BWP.cleanStepFS fs)
      BWP.WORK_DIR = false := by
    cases hd : isDirFS (BWP.cleanTargets.foldl BWP.cleanStepFS fs) BWP.WORK_DIR with
    | false => rfl
    | true =>
      obtain ⟨e, he, hp, -⟩ := isDirFS_iff.mp hd
      exact absurd (by rw [hp]; exact ⟨["pyinstaller-work"], rfl⟩) (hunder e he)
  constructor
  · show makedirsGo [BWP.OUTPUT_DIR] _ = _
    unfold makedirsGo
    rw [hgone.2, hgone.1]
    rfl
  · show makedirsGo [BWP.OUTPUT_DIR, BWP.WORK_DIR] _ = _
    unfold makedirsGo
    rw [isFileFS_append, hgone.2, isDirFS_append, hgone.1]
    have h1 : isFileFS [(⟨BWP.OUTPUT_DIR, true, ""⟩ : Entry)] BWP.OUTPUT_DIR = false := by
      decide
    have h2 : isDirFS [(⟨BWP.OUTPUT_DIR, true, ""⟩ : Entry)] BWP.OUTPUT_DIR = true := by
      decide
    rw [h1, h2]
    simp only [Bool.false_or, Bool.or_false, if_false, if_true]
    unfold makedirsGo
    rw [isFileFS_append, hworkfile, isDirFS_append, hworkdir]
    have h3 : isFileFS [(⟨BWP.OUTPUT_DIR, true, ""⟩ : Entry)] BWP.WORK_DIR = false := by
      decide
    have h4 : isDirFS [(⟨BWP.OUTPUT_DIR, true, ""⟩ : Entry)] BWP.WORK_DIR = false := by
      decide
    rw [h3, h4]
    simp [makedirsGo, BWP.preparedFS]

/-! ## Stage bookkeeping lemmas -/

@[simp] theorem logMsg_fs (m : String) (s : St) : (logMsg m s).fs = s.fs := rfl

@[simp] theorem logMsg_trace (m : String) (s : St) : (logMsg m s).trace = s.trace := rfl

@[simp] theorem logMsg_log (m : String) (s : St) : (logMsg m s).log = s.log ++ [m] := rfl

@[simp] theorem tagStage_fs (t : Stage) (s : St) : (tagStage t s).fs = s.fs := rfl

@[simp] theorem tagStage_trace (t : Stage) (s : St) :
    (tagStage t s).trace = s.trace ++ [t] := rfl

@[simp] theorem tagStage_log (t : Stage) (s : St) : (tagStage t s).log = s.log := rfl

theorem BWP.cleanStep_trace (s : St) (p : Path) :
    (BWP.cleanStep s p).trace = s.trace := by
  by_cases h1 : isDirFS s.fs p = true
  · simp [BWP.cleanStep, h1]
  · by_cases h2 : isFileFS s.fs p = true <;> simp [BWP.cleanStep, h1, h2]

theorem BWP.foldl_cleanStep_trace (L : List Path) (s : St) :
    (L.foldl BWP.cleanStep s).trace = s.trace := by
  induction L generalizing s with
  | nil => rfl
  | cons q L ih => simp only [List.foldl_cons, ih, BWP.cleanStep_trace]

theorem BWP.clean_trace (s : St) :
    (BWP.clean s).trace = s.trace ++ [Stage.cleaner] := by
  unfold BWP.clean
  rw [BWP.foldl_cleanStep_trace]
  simp

theorem NB.nb_cleanStep_trace (s : St) (p : Path) :
    (NB.cleanStep s p).trace = s.trace := by
  by_cases h1 : pathExistsB s.fs p = true
  · by_cases h2 : isDirFS s.fs p = true <;> simp [NB.cleanStep, h1, h2]
  · simp [NB.cleanStep, h1]

theorem NB.nb_foldl_cleanStep_trace (L : List Path) (s : St) :
    (L.foldl NB.cleanStep s).trace = s.trace := by
  induction L generalizing s with
  | nil => rfl
  | cons q L ih => simp only [List.foldl_cons, ih, NB.nb_cleanStep_trace]

theorem NB.nb_clean_trace (s : St) :
    (NB.clean s).trace = s.trace ++ [Stage.cleaner] := by
  unfold NB.clean
  rw [NB.nb_foldl_cleanStep_trace]
  simp

theorem BWP.ensure_installed_eq {eenv : EnsureEnv} (s : St)
    (h : eenv.installedAlready = true) :
    BWP.ensure_pyinstaller_installed eenv s = .ok (false, tagStage .ensurer s) := by
  simp [BWP.ensure_pyinstaller_installed, h]

theorem BWP.ensure_install_ok_eq {eenv : EnsureEnv} (s : St)
    (h1 : eenv.installedAlready = false) (h2 : eenv.pipExitCode = 0) :
    BWP.ensure_pyinstaller_installed eenv s =
      .ok (true, logMsg "[*] PyInstaller not found. Installing..." (tagStage .ensurer s)) := by
  simp [BWP.ensure_pyinstaller_installed, h1, h2]

theorem BWP.ensure_install_fail_eq {eenv : EnsureEnv} (s : St)
    (h1 : eenv.installedAlready = false) (h2 : eenv.pipExitCode ≠ 0) :
    BWP.ensure_pyinstaller_installed eenv s =
      .error (logMsg "[*] PyInstaller not found. Installing..." (tagStage .ensurer s)) := by
  simp [BWP.ensure_pyinstaller_installed, h1, h2]

theorem NB.nb_ensure_installed_eq {eenv : EnsureEnv} (s : St)
    (h : eenv.installedAlready = true) :
    NB.ensure_nuitka_installed eenv s = .ok (false, tagStage .ensurer s) := by
  simp [NB.ensure_nuitka_installed, h]

theorem NB.nb_ensure_install_ok_eq {eenv : EnsureEnv} (s : St)
    (h1 : eenv.installedAlready = false) (h2 : eenv.pipExitCode = 0) :
    NB.ensure_nuitka_installed eenv s =
      .ok (true, logMsg "[*] Nuitka not installed. Installing..." (tagStage .ensurer s)) := by
  simp [NB.ensure_nuitka_installed, h1, h2]

theorem NB.nb_ensure_install_fail_eq {eenv : EnsureEnv} (s : St)
    (h1 : eenv.installedAlready = false) (h2 : eenv.pipExitCode ≠ 0) :
    NB.ensure_nuitka_installed eenv s =
      .error (logMsg "[*] Nuitka not installed. Installing..." (tagStage .ensurer s)) := by
  simp [NB.ensure_nuitka_installed, h1, h2]

theorem BWP.build_fail_eq {env : SubEnv} {s : St} {g1 g2 : FS}
    (h1 : makedirsFS BWP.OUTPUT_DIR s.fs = .ok g1)
    (h2 : makedirsFS BWP.WORK_DIR g1 = .ok g2)
    (hx : env.exitCode ≠ 0) :
    BWP.build env s = .error (.exited 1
      ⟨env.effect g2,
       s.log ++ ["[+] Starting PyInstaller build...",
                 "[>] Command: " ++ String.intercalate " " BWP.cmd,
                 "[ERROR] PyInstaller build failed."],
       s.trace ++ [Stage.invoker]⟩) := by
  have hxx : (env.exitCode == 0) = false := by simp [hx]
  simp only [BWP.build, logMsg_fs, tagStage_fs, h1, h2, hxx]
  simp [logMsg, tagStage]

theorem BWP.build_ok_eq {env : SubEnv} {s : St} {g1 g2 : FS}
    (h1 : makedirsFS BWP.OUTPUT_DIR s.fs = .ok g1)
    (h2 : makedirsFS BWP.WORK_DIR g1 = .ok g2)
    (hx : env.exitCode = 0) :
    BWP.build env s =
      (match BWP.normalize_output_directory (env.effect g2) with
       | (some p, nfs) => .ok (some p,
           ⟨nfs,
            s.log ++ ["[+] Starting PyInstaller build...",
                      "[>] Command: " ++ String.intercalate " " BWP.cmd,
                      "[SUCCESS] Build finished. Output: " ++ showPath p],
            s.trace ++ [Stage.invoker, Stage.normalizer]⟩)
       | (none, nfs) => .ok (none,
           ⟨nfs,
            s.log ++ ["[+] Starting PyInstaller build...",
                      "[>] Command: " ++ String.intercalate " " BWP.cmd,
                      "[WARNING] Unable to locate PyInstaller output folder."],
            s.trace ++ [Stage.invoker, Stage.normalizer]⟩)) := by
  have hxx : (env.exitCode == 0) = true := by simp [hx]
  simp only [BWP.build, logMsg_fs, tagStage_fs, h1, h2, hxx]
  rcases hn : BWP.normalize_output_directory (env.effect g2) with ⟨np, nfs⟩
  cases np <;> simp [logMsg, tagStage]

theorem NB.nb_build_fail_eq {system : String} {env : SubEnv} {s : St}
    (hx : env.exitCode ≠ 0) :
    NB.build system env s = .error (.exited 1
      ⟨env.effect s.fs,
       s.log ++ ["[+] Starting Nuitka build...",
                 "[*] Using Nuitka automatic import tracking (--follow-imports)",
                 "    This will automatically detect and include all required packages",
                 "[>] Command: " ++ String.intercalate " " (NB.cmd system),
                 "[ERROR] Build failed!"],
       s.trace ++ [Stage.invoker]⟩) := by
  have hxx : (env.exitCode == 0) = false := by simp [hx]
  simp only [NB.build, logMsg_fs, tagStage_fs, hxx]
  simp [logMsg, tagStage]

theorem NB.nb_build_ok_eq {system : String} {env : SubEnv} {s : St}
    (hx : env.exitCode = 0) :
    NB.build system env s = .ok
      ⟨env.effect s.fs,
       s.log ++ ["[+] Starting Nuitka build...",
                 "[*] Using Nuitka automatic import tracking (--follow-imports)",
                 "    This will automatically detect and include all required packages",
                 "[>] Command: " ++ String.intercalate " " (NB.cmd system),
                 "[SUCCESS] Build finished successfully!"],
       s.trace ++ [Stage.invoker]⟩ := by
  have hxx : (env.exitCode == 0) = true := by simp [hx]
  simp only [NB.build, logMsg_fs, tagStage_fs, hxx]
  simp [logMsg, tagStage]

theorem BWP.post_build_none_eq (s : St) :
    BWP.post_build none s =
      .ok (logMsg "[WARNING] Dist directory missing, skip post-build tasks."
             (tagStage .seeder s)) := by
  simp [BWP.post_build]

theorem BWP.post_build_missing_eq {s : St} {p : Path}
    (h : pathExistsB s.fs p = false) :
    BWP.post_build (some p) s =
      .ok (logMsg "[WARNING] Dist directory missing, skip post-build tasks."
             (tagStage .seeder s)) := by
  simp [BWP.post_build, h]

theorem BWP.post_build_noTemplate_eq {s : St} {p : Path}
    (hd : pathExistsB s.fs p = true)
    (ht : pathExistsB s.fs BWP.config_template = false) :
    BWP.post_build (some p) s =
      .ok (logMsg ("    [WARNING] Template file not found: "
                     ++ showPath BWP.config_template)
             (logMsg "[*] Running post-build tasks..." (tagStage .seeder s))) := by
  simp [BWP.post_build, hd, ht]

theorem BWP.post_build_ok_trace {d : Option Path} {s s' : St}
    (h : BWP.post_build d s = .ok s') : s'.trace = s.trace ++ [Stage.seeder] := by
  unfold BWP.post_build at h
  cases d with
  | none =>
    simp only [Except.ok.injEq] at h
    subst h
    simp
  | some p =>
    dsimp only at h
    split at h
    · simp only [Except.ok.injEq] at h
      subst h
      simp
    · split at h
      · simp only [Except.ok.injEq] at h
        subst h
        simp
      · split at h
        · cases h
        · split at h
          · cases h
          · simp only [Except.ok.injEq] at h
            subst h
            simp

theorem BWP.ensure_ok_trace {eenv : EnsureEnv} {s : St} {b : Bool} {s₁ : St}
    (h : BWP.ensure_pyinstaller_installed eenv s = .ok (b, s₁)) :
    s₁.trace = s.trace ++ [Stage.ensurer] := by
  unfold BWP.ensure_pyinstaller_installed at h
  dsimp only at h
  split at h
  · simp only [Except.ok.injEq, Prod.mk.injEq] at h
    obtain ⟨-, rfl⟩ := h
    simp
  · split at h
    · simp only [Except.ok.injEq, Prod.mk.injEq] at h
      obtain ⟨-, rfl⟩ := h
      simp
    · cases h

theorem NB.nb_ensure_ok_trace {eenv : EnsureEnv} {s : St} {b : Bool} {s₁ : St}
    (h : NB.ensure_nuitka_installed eenv s = .ok (b, s₁)) :
    s₁.trace = s.trace ++ [Stage.ensurer] := by
  unfold NB.ensure_nuitka_installed at h
  dsimp only at h
  split at h
  · simp only [Except.ok.injEq, Prod.mk.injEq] at h
    obtain ⟨-, rfl⟩ := h
    simp
  · split at h
    · simp only [Except.ok.injEq, Prod.mk.injEq] at h
      obtain ⟨-, rfl⟩ := h
      simp
    · cases h

theorem BWP.build_ok_trace {env : SubEnv} {s : St} {op : Option Path} {s' : St}
    (h : BWP.build env s = .ok (op, s')) :
    s'.trace = s.trace ++ [Stage.invoker, Stage.normalizer] := by
  unfold BWP.build at h
  dsimp only at h
  split at h
  · cases h
  · split at h
    · cases h
    · split at h
      · split at h
        · simp only [Except.ok.injEq, Prod.mk.injEq] at h
          obtain ⟨-, rfl⟩ := h
          simp
        · simp only [Except.ok.injEq, Prod.mk.injEq] at h
          obtain ⟨-, rfl⟩ := h
          simp
      · cases h

theorem NB.nb_build_ok_trace {system : String} {env : SubEnv} {s s' : St}
    (h : NB.build system env s = .ok s') :
    s'.trace = s.trace ++ [Stage.invoker] := by
  unfold NB.build at h
  dsimp only at h
  split at h
  · simp only [Except.ok.injEq] at h
    subst h
    simp
  · cases h

theorem NB.post_build_trace (s : St) :
    (NB.post_build s).trace = s.trace ++ [Stage.seeder] := by
  unfold NB.post_build
  dsimp only
  repeat' split
  all_goals simp

/-! ## Helpers for the config seeder and artifact naming -/

theorem getLastD_append_cons (xs : List String) (a : String) (t : List String) :
    (xs ++ a :: t).getLastD "" = (a :: t).getLastD "" := by
  simp only [List.getLastD_eq_getLast?, List.getLast?_append]
  cases h : (a :: t).getLast? with
  | none => simp [List.getLast?] at h
  | some x => simp

/-- A relocated path either lands exactly on the move target or keeps its
final component. -/
theorem relocate_last {src dst p : Path} (h : src <+: p) :
    relocate src dst p = dst ∨
    (relocate src dst p).getLastD "" = p.getLastD "" := by
  obtain ⟨t, rfl⟩ := h
  cases t with
  | nil => left; simp [relocate]
  | cons a t =>
    right
    unfold relocate
    rw [List.drop_left]
    rw [getLastD_append_cons, getLastD_append_cons]

/-- `post_build` of the Nuitka pipeline with the template absent: it only
prints (the warning among other lines) and leaves the filesystem alone. -/
theorem NB.post_build_noTemplate {s : St}
    (ht : pathExistsB s.fs NB.possible_configs = false) :
    (NB.post_build s).fs = s.fs ∧
    (("    [WARNING] No example config file found: "
        ++ showPath NB.possible_configs) ∈ (NB.post_build s).log) := by
  unfold NB.post_build
  dsimp only
  simp only [logMsg_fs, tagStage_fs]
  by_cases hd : pathExistsB s.fs NB.dist_dir0 = true
  · simp only [hd, if_true, logMsg_fs, tagStage_fs, ht, Bool.false_eq_true,
      if_false]
    exact ⟨trivial, by simp⟩
  · have hd' : pathExistsB s.fs NB.dist_dir0 = false := Bool.eq_false_iff.mpr hd
    simp only [hd', Bool.false_eq_true, if_false, logMsg_fs, tagStage_fs, ht]
    exact ⟨trivial, by simp⟩

/-! ## Characterization of the output normalizer -/

theorem BWP.normalize_none {fs : FS}
    (hb : pathExistsB fs BWP.app_bundle_src = false)
    (hf : pathExistsB fs BWP.folder_src = false) :
    BWP.normalize_output_directory fs = (none, fs) := by
  simp [BWP.normalize_output_directory, hb, hf]

theorem BWP.normalize_bundle {fs : FS} (wf : wellFormedFS fs)
    (hb : pathExistsB fs BWP.app_bundle_src = true) :
    (BWP.normalize_output_directory fs).1 = some BWP.app_target ∧
    ∀ e : Entry, e ∈ (BWP.normalize_output_directory fs).2 ↔
      (e ∈ fs ∧ ¬ BWP.app_target <+: e.path ∧ ¬ BWP.app_bundle_src <+: e.path) ∨
      (∃ e₀ ∈ fs, BWP.app_bundle_src <+: e₀.path ∧
        e = { e₀ with path := relocate BWP.app_bundle_src BWP.app_target e₀.path }) := by
  simp only [BWP.normalize_output_directory, hb, if_true]
  refine ⟨trivial, fun e => ?_⟩
  rw [replace_path_eq_rmtreeFS (by decide) wf]
  exact mem_move_rmtree
    (fun q => @no_common_extension BWP.app_bundle_src BWP.app_target q
      (by decide) (by decide))

theorem BWP.normalize_flat {fs : FS} (wf : wellFormedFS fs)
    (hb : pathExistsB fs BWP.app_bundle_src = false)
    (hf : pathExistsB fs BWP.folder_src = true) :
    (BWP.normalize_output_directory fs).1 = some BWP.folder_target ∧
    ∀ e : Entry, e ∈ (BWP.normalize_output_directory fs).2 ↔
      (e ∈ fs ∧ ¬ BWP.folder_target <+: e.path ∧ ¬ BWP.folder_src <+: e.path) ∨
      (∃ e₀ ∈ fs, BWP.folder_src <+: e₀.path ∧
        e = { e₀ with path := relocate BWP.folder_src BWP.folder_target e₀.path }) := by
  simp only [BWP.normalize_output_directory, hb, hf, Bool.false_eq_true,
    if_false, if_true]
  refine ⟨trivial, fun e => ?_⟩
  rw [replace_path_eq_rmtreeFS (by decide) wf]
  exact mem_move_rmtree
    (fun q => @no_common_extension BWP.folder_src BWP.folder_target q
      (by decide) (by decide))

/-! ## Preservation of the template file -/

theorem append_long_ne_template {a b : String} {rest q : Path} :
    (a :: b :: rest) ++ q ≠ (["config.example.toml"] : Path) := by
  intro h
  have hlen := congrArg List.length h
  simp [List.length_append] at hlen

theorem templateEntries_filter {fs : FS} {pred : Entry → Bool}
    (h : ∀ e : Entry, e.path = ["config.example.toml"] → pred e = true) :
    templateEntries (fs.filter pred) = templateEntries fs := by
  unfold templateEntries
  rw [List.filter_filter]
  apply List.filter_congr
  intro e he
  by_cases hp : e.path = ["config.example.toml"]
  · simp [hp, h e hp]
  · simp [hp]

theorem templateEntries_rmtreeFS {p : Path} {fs : FS}
    (h : ¬ p <+: (["config.example.toml"] : Path)) :
    templateEntries (rmtreeFS p fs) = templateEntries fs := by
  unfold rmtreeFS
  apply templateEntries_filter
  intro e he
  have hb : List.isPrefixOf p e.path = false := by
    rw [he]
    exact Bool.eq_false_iff.mpr (fun hh => h (List.isPrefixOf_iff_prefix.mp hh))
  simp [hb]

theorem templateEntries_removeFileFS {p : Path} {fs : FS}
    (h : p ≠ ["config.example.toml"]) :
    templateEntries (removeFileFS p fs) = templateEntries fs := by
  unfold removeFileFS
  apply templateEntries_filter
  intro e he
  simp [he, Ne.symm h]

theorem templateEntries_append {xs ys : FS}
    (h : ∀ e ∈ ys, e.path ≠ ["config.example.toml"]) :
    templateEntries (xs ++ ys) = templateEntries xs := by
  unfold templateEntries
  rw [List.filter_append]
  have hnil : ys.filter (fun e => e.path == ["config.example.toml"]) = [] := by
    rw [List.filter_eq_nil_iff]
    intro e he
    simp [h e he]
  rw [hnil, List.append_nil]

theorem templateEntries_writeFileFS {dst : Path} {c : String} {fs : FS}
    (h : dst ≠ ["config.example.toml"]) :
    templateEntries (writeFileFS dst c fs) = templateEntries fs := by
  unfold writeFileFS
  rw [templateEntries_append (by
    intro e he
    rw [List.mem_singleton] at he
    subst he
    exact h)]
  exact templateEntries_removeFileFS h

theorem templateEntries_moveFS {src dst : Path} (fs : FS)
    (h1 : ¬ src <+: (["config.example.toml"] : Path))
    (h2 : ∀ q : Path, dst ++ q ≠ ["config.example.toml"]) :
    templateEntries (moveFS src dst fs) = templateEntries fs := by
  induction fs with
  | nil => rfl
  | cons e rest ih =>
    show templateEntries
      ((if src.isPrefixOf e.path
        then { e with path := relocate src dst e.path } else e) :: moveFS src dst rest) =
      templateEntries (e :: rest)
    unfold templateEntries
    rw [List.filter_cons, List.filter_cons]
    cases hb : List.isPrefixOf src e.path with
    | false =>
      simp only [Bool.false_eq_true, if_false]
      split
      · exact congrArg (List.cons e) ih
      · exact ih
    | true =>
      have hpre := List.isPrefixOf_iff_prefix.mp hb
      simp only [eq_self_iff_true, if_true]
      have hx : (({ e with path := relocate src dst e.path } : Entry).path
          == ["config.example.toml"]) = false := by
        simp only [beq_eq_false_iff_ne, ne_eq]
        exact h2 _
      have hy : (e.path == ["config.example.toml"]) = false := by
        simp only [beq_eq_false_iff_ne, ne_eq]
        intro hh
        exact h1 (hh ▸ hpre)
      rw [hx, hy]
      simp only [Bool.false_eq_true, if_false]
      exact ih

theorem templateEntries_makedirsGo {L : List Path} {fs : FS}
    (h : ∀ q ∈ L, q ≠ ["config.example.toml"]) :
    templateEntries (exceptFS (makedirsGo L fs)) = templateEntries fs := by
  induction L generalizing fs with
  | nil => rfl
  | cons q rest ih =>
    unfold makedirsGo
    split
    · rfl
    · split
      · exact ih (fun r hr => h r (by simp [hr]))
      · rw [ih (fun r hr => h r (by simp [hr]))]
        exact templateEntries_append (by
          intro e he
          rw [List.mem_singleton] at he
          subst he
          exact h q (by simp))

theorem templateEntries_copy2FS {src dst : Path} {fs g : FS}
    (h2 : ∀ q : Path, dst ++ q ≠ ["config.example.toml"])
    (hc : copy2FS src dst fs = .ok g) :
    templateEntries g = templateEntries fs := by
  unfold copy2FS at hc
  split at hc
  · cases hc
  · split at hc
    · simp only [Except.ok.injEq] at hc
      subst hc
      exact templateEntries_writeFileFS (h2 _)
    · split at hc
      · simp only [Except.ok.injEq] at hc
        subst hc
        exact templateEntries_writeFileFS (by simpa using h2 [])
      · split at hc
        · simp only [Except.ok.injEq] at hc
          subst hc
          exact templateEntries_writeFileFS (by simpa using h2 [])
        · cases hc

theorem BWP.templateEntries_cleanStepFS {fs : FS} {p : Path}
    (hp : ¬ p <+: (["config.example.toml"] : Path)) :
    templateEntries (BWP.cleanStepFS fs p) = templateEntries fs := by
  unfold BWP.cleanStepFS
  split
  · exact templateEntries_rmtreeFS hp
  · split
    · exact templateEntries_removeFileFS
        (fun hh => hp (hh ▸ List.prefix_refl _))
    · rfl

theorem BWP.templateEntries_foldl_cleanStepFS {L : List Path} {fs : FS}
    (h : ∀ p ∈ L, ¬ p <+: (["config.example.toml"] : Path)) :
    templateEntries (L.foldl BWP.cleanStepFS fs) = templateEntries fs := by
  induction L generalizing fs with
  | nil => rfl
  | cons q rest ih =>
    simp only [List.foldl_cons]
    rw [ih (fun r hr => h r (by simp [hr]))]
    exact BWP.templateEntries_cleanStepFS (h q (by simp))

theorem BWP.templateEntries_clean (s : St) :
    templateEntries (BWP.clean s).fs = templateEntries s.fs := by
  rw [BWP.clean_fs]
  exact BWP.templateEntries_foldl_cleanStepFS (by decide)

theorem NB.nb_templateEntries_cleanStepFS {fs : FS} {p : Path}
    (hp : ¬ p <+: (["config.example.toml"] : Path)) :
    templateEntries (NB.cleanStepFS fs p) = templateEntries fs := by
  unfold NB.cleanStepFS
  split
  · split
    · exact templateEntries_rmtreeFS hp
    · rfl
  · rfl

theorem NB.nb_templateEntries_foldl_cleanStepFS {L : List Path} {fs : FS}
    (h : ∀ p ∈ L, ¬ p <+: (["config.example.toml"] : Path)) :
    templateEntries (L.foldl NB.cleanStepFS fs) = templateEntries fs := by
  induction L generalizing fs with
  | nil => rfl
  | cons q rest ih =>
    simp only [List.foldl_cons]
    rw [ih (fun r hr => h r (by simp [hr]))]
    exact NB.nb_templateEntries_cleanStepFS (h q (by simp))

theorem NB.nb_templateEntries_clean (s : St) :
    templateEntries (NB.clean s).fs = templateEntries s.fs := by
  rw [NB.nb_clean_fs]
  exact NB.nb_templateEntries_foldl_cleanStepFS (by decide)

theorem BWP.templateEntries_replace_path {fs : FS} {p : Path}
    (hp : ¬ p <+: (["config.example.toml"] : Path)) :
    templateEntries (BWP.replace_path p fs) = templateEntries fs := by
  unfold BWP.replace_path
  split
  · exact templateEntries_rmtreeFS hp
  · split
    · exact templateEntries_removeFileFS
        (fun hh => hp (hh ▸ List.prefix_refl _))
    · rfl

theorem BWP.templateEntries_normalize (fs : FS) :
    templateEntries (BWP.normalize_output_directory fs).2 = templateEntries fs := by
  have h2a : ∀ q : Path, BWP.app_target ++ q ≠ (["config.example.toml"] : Path) :=
    fun q => append_long_ne_template
  have h2f : ∀ q : Path, BWP.folder_target ++ q ≠ (["config.example.toml"] : Path) :=
    fun q => append_long_ne_template
  have h1a : ¬ BWP.app_bundle_src <+: (["config.example.toml"] : Path) := by decide
  have h1f : ¬ BWP.folder_src <+: (["config.example.toml"] : Path) := by decide
  unfold BWP.normalize_output_directory
  split
  · show templateEntries (moveFS _ _ (BWP.replace_path BWP.app_target fs)) = _
    rw [templateEntries_moveFS _ h1a h2a]
    exact BWP.templateEntries_replace_path (by decide)
  · split
    · show templateEntries (moveFS _ _ (BWP.replace_path BWP.folder_target fs)) = _
      rw [templateEntries_moveFS _ h1f h2f]
      exact BWP.templateEntries_replace_path (by decide)
    · rfl

theorem BWP.ensure_ok_fs {eenv : EnsureEnv} {s : St} {b : Bool} {s₁ : St}
    (h : BWP.ensure_pyinstaller_installed eenv s = .ok (b, s₁)) : s₁.fs = s.fs := by
  unfold BWP.ensure_pyinstaller_installed at h
  dsimp only at h
  split at h
  · simp only [Except.ok.injEq, Prod.mk.injEq] at h
    obtain ⟨-, rfl⟩ := h
    rfl
  · split at h
    · simp only [Except.ok.injEq, Prod.mk.injEq] at h
      obtain ⟨-, rfl⟩ := h
      rfl
    · cases h

theorem BWP.ensure_error_fs {eenv : EnsureEnv} {s : St} {s₁ : St}
    (h : BWP.ensure_pyinstaller_installed eenv s = .error s₁) : s₁.fs = s.fs := by
  unfold BWP.ensure_pyinstaller_installed at h
  dsimp only at h
  split at h
  · cases h
  · split at h
    · cases h
    · simp only [Except.error.injEq] at h
      subst h
      rfl

theorem NB.nb_ensure_ok_fs {eenv : EnsureEnv} {s : St} {b : Bool} {s₁ : St}
    (h : NB.ensure_nuitka_installed eenv s = .ok (b, s₁)) : s₁.fs = s.fs := by
  unfold NB.ensure_nuitka_installed at h
  dsimp only at h
  split at h
  · simp only [Except.ok.injEq, Prod.mk.injEq] at h
    obtain ⟨-, rfl⟩ := h
    rfl
  · split at h
    · simp only [Except.ok.injEq, Prod.mk.injEq] at h
      obtain ⟨-, rfl⟩ := h
      rfl
    · cases h

theorem NB.nb_ensure_error_fs {eenv : EnsureEnv} {s : St} {s₁ : St}
    (h : NB.ensure_nuitka_installed eenv s = .error s₁) : s₁.fs = s.fs := by
  unfold NB.ensure_nuitka_installed at h
  dsimp only at h
  split at h
  · cases h
  · split at h
    · cases h
    · simp only [Except.error.injEq] at h
      subst h
      rfl

theorem BWP.normalize_fst (fs : FS) :
    (BWP.normalize_output_directory fs).1 = none ∨
    (BWP.normalize_output_directory fs).1 = some BWP.app_target ∨
    (BWP.normalize_output_directory fs).1 = some BWP.folder_target := by
  unfold BWP.normalize_output_directory
  split
  · right; left; rfl
  · split
    · right; right; rfl
    · left; rfl

theorem BWP.templateEntries_makedirsFS_ok {p : Path} {fs g : FS}
    (hq : ∀ q ∈ ancestorChain p, q ≠ (["config.example.toml"] : Path))
    (h : makedirsFS p fs = .ok g) : templateEntries g = templateEntries fs := by
  have hgo := @templateEntries_makedirsGo (ancestorChain p) fs hq
  unfold makedirsFS at h
  rw [h] at hgo
  simpa [exceptFS] using hgo

theorem BWP.templateEntries_makedirsFS_error {p : Path} {fs g : FS}
    (hq : ∀ q ∈ ancestorChain p, q ≠ (["config.example.toml"] : Path))
    (h : makedirsFS p fs = .error g) : templateEntries g = templateEntries fs := by
  have hgo := @templateEntries_makedirsGo (ancestorChain p) fs hq
  unfold makedirsFS at h
  rw [h] at hgo
  simpa [exceptFS] using hgo

theorem BWP.templateEntries_post_build_some {s : St} {p : Path}
    (hcp : ∀ q ∈ ancestorChain p, q ≠ (["config.example.toml"] : Path))
    (hcm : ∀ q ∈ ancestorChain (p ++ ["Contents", "MacOS"]),
      q ≠ (["config.example.toml"] : Path))
    (hd1 : ∀ q : Path, (p ++ ["config.toml"]) ++ q ≠ (["config.example.toml"] : Path))
    (hd2 : ∀ q : Path,
      (p ++ ["Contents", "MacOS"] ++ ["config.toml"]) ++ q ≠
        (["config.example.toml"] : Path)) :
    templateEntries (seederFS (BWP.post_build (some p) s)) = templateEntries s.fs := by
  unfold BWP.post_build
  dsimp only
  simp only [logMsg_fs, tagStage_fs]
  split
  · rfl
  · split
    · rfl
    · by_cases hc : (endsWithDotApp (p.getLastD "")
        && pathExistsB s.fs (p ++ ["Contents", "MacOS"])) = true
      · simp only [hc, if_true]
        rcases hm : makedirsFS (p ++ ["Contents", "MacOS"]) s.fs with g | g
        · simp only [hm]
          exact BWP.templateEntries_makedirsFS_error hcm hm
        · simp only [hm]
          rcases hco : copy2FS BWP.config_template
            (p ++ ["Contents", "MacOS"] ++ ["config.toml"]) g with u | g2
          · simp only [hco]
            exact BWP.templateEntries_makedirsFS_ok hcm hm
          · simp only [hco]
            show templateEntries g2 = templateEntries s.fs
            rw [templateEntries_copy2FS hd2 hco]
            exact BWP.templateEntries_makedirsFS_ok hcm hm
      · have hc' : (endsWithDotApp (p.getLastD "")
            && pathExistsB s.fs (p ++ ["Contents", "MacOS"])) = false :=
          Bool.eq_false_iff.mpr hc
        simp only [hc', Bool.false_eq_true, if_false]
        rcases hm : makedirsFS p s.fs with g | g
        · simp only [hm]
          exact BWP.templateEntries_makedirsFS_error hcp hm
        · simp only [hm]
          rcases hco : copy2FS BWP.config_template (p ++ ["config.toml"]) g with u | g2
          · simp only [hco]
            exact BWP.templateEntries_makedirsFS_ok hcp hm
          · simp only [hco]
            show templateEntries g2 = templateEntries s.fs
            rw [templateEntries_copy2FS hd1 hco]
            exact BWP.templateEntries_makedirsFS_ok hcp hm

theorem BWP.templateEntries_post_build {s : St} {d : Option Path}
    (hd : d = none ∨ d = some BWP.app_target ∨ d = some BWP.folder_target) :
    templateEntries (seederFS (BWP.post_build d s)) = templateEntries s.fs := by
  rcases hd with rfl | rfl | rfl
  · rw [BWP.post_build_none_eq]
    rfl
  · exact BWP.templateEntries_post_build_some (by decide) (by decide)
      (fun q => append_long_ne_template) (fun q => append_long_ne_template)
  · exact BWP.templateEntries_post_build_some (by decide) (by decide)
      (fun q => append_long_ne_template) (fun q => append_long_ne_template)

theorem NB.nb_templateEntries_post_build (s : St) :
    templateEntries (NB.post_build s).fs = templateEntries s.fs := by
  unfold NB.post_build
  dsimp only
  simp only [logMsg_fs, tagStage_fs]
  by_cases hdd : pathExistsB s.fs NB.dist_dir0 = true
  · simp only [hdd, eq_self_iff_true, if_true, logMsg_fs, tagStage_fs]
    by_cases ht : pathExistsB s.fs NB.possible_configs = true
    · simp only [ht, eq_self_iff_true, if_true]
      rcases hco : copy2FS NB.possible_configs (NB.dist_dir0 ++ ["config.toml"]) s.fs
        with u | g
      · simp only [hco]
        simp
      · simp only [hco]
        show templateEntries g = templateEntries s.fs
        exact templateEntries_copy2FS (fun q => append_long_ne_template) hco
    · have ht' : pathExistsB s.fs NB.possible_configs = false := Bool.eq_false_iff.mpr ht
      simp only [ht', Bool.false_eq_true, if_false]
      simp
  · have hdd' : pathExistsB s.fs NB.dist_dir0 = false := Bool.eq_false_iff.mpr hdd
    simp only [hdd', Bool.false_eq_true, if_false, logMsg_fs, tagStage_fs]
    by_cases ht : pathExistsB s.fs NB.possible_configs = true
    · simp only [ht, eq_self_iff_true, if_true]
      rcases hco : copy2FS NB.possible_configs (([".build"] : Path) ++ ["config.toml"]) s.fs
        with u | g
      · simp only [hco]
        simp
      · simp only [hco]
        show templateEntries g = templateEntries s.fs
        refine templateEntries_copy2FS ?_ hco
        intro q hq
        have := congrArg List.length hq
        simp [List.length_append] at this
    · have ht' : pathExistsB s.fs NB.possible_configs = false := Bool.eq_false_iff.mpr ht
      simp only [ht', Bool.false_eq_true, if_false]
      simp

theorem BWP.templateEntries_build {env : SubEnv} {s : St}
    (hEff : ∀ g : FS, templateEntries (env.effect g) = templateEntries g) :
    (∀ (op : Option Path) (s' : St), BWP.build env s = .ok (op, s') →
      templateEntries s'.fs = templateEntries s.fs ∧
      (op = none ∨ op = some BWP.app_target ∨ op = some BWP.folder_target)) ∧
    (∀ t : Term, BWP.build env s = .error t →
      templateEntries (termFS t) = templateEntries s.fs) := by
  have hchain1 : ∀ q ∈ ancestorChain BWP.OUTPUT_DIR,
      q ≠ (["config.example.toml"] : Path) := by decide
  have hchain2 : ∀ q ∈ ancestorChain BWP.WORK_DIR,
      q ≠ (["config.example.toml"] : Path) := by decide
  constructor
  · intro op s' h
    unfold BWP.build at h
    dsimp only at h
    simp only [logMsg_fs, tagStage_fs] at h
    split at h
    · cases h
    next g1 hm1 =>
      split at h
      · cases h
      next g2 hm2 =>
        split at h
        · rcases hn : BWP.normalize_output_directory (env.effect g2) with ⟨np, nfs⟩
          rw [hn] at h
          have hfst := BWP.normalize_fst (env.effect g2)
          have hsnd := BWP.templateEntries_normalize (env.effect g2)
          rw [hn] at hfst hsnd
          have hch : templateEntries nfs = templateEntries s.fs := by
            rw [hsnd, hEff g2, BWP.templateEntries_makedirsFS_ok hchain2 hm2,
              BWP.templateEntries_makedirsFS_ok hchain1 hm1]
          cases np with
          | some p =>
            simp only [Except.ok.injEq, Prod.mk.injEq] at h
            obtain ⟨rfl, rfl⟩ := h
            exact ⟨hch, by simpa using hfst⟩
          | none =>
            simp only [Except.ok.injEq, Prod.mk.injEq] at h
            obtain ⟨rfl, rfl⟩ := h
            exact ⟨hch, by
              rcases hfst with h1 | h1 | h1 <;> simp at h1 <;> simp [h1]⟩
        · cases h
  · intro t h
    unfold BWP.build at h
    dsimp only at h
    simp only [logMsg_fs, tagStage_fs] at h
    split at h
    next g1 hm1 =>
      simp only [Except.error.injEq] at h
      subst h
      exact BWP.templateEntries_makedirsFS_error hchain1 hm1
    next g1 hm1 =>
      split at h
      next g2 hm2 =>
        simp only [Except.error.injEq] at h
        subst h
        show templateEntries g2 = templateEntries s.fs
        rw [BWP.templateEntries_makedirsFS_error hchain2 hm2,
          BWP.templateEntries_makedirsFS_ok hchain1 hm1]
      next g2 hm2 =>
        split at h
        · split at h
          · cases h
          · cases h
        · simp only [Except.error.injEq] at h
          subst h
          show templateEntries (env.effect g2) = templateEntries s.fs
          rw [hEff g2, BWP.templateEntries_makedirsFS_ok hchain2 hm2,
            BWP.templateEntries_makedirsFS_ok hchain1 hm1]

theorem BWP.templateEntries_main {fs : FS} {eenv : EnsureEnv} {senv : SubEnv}
    (hEff : ∀ g : FS, templateEntries (senv.effect g) = templateEntries g) :
    templateEntries (finalFS (BWP.main eenv senv (initSt fs))) = templateEntries fs := by
  unfold BWP.main
  rcases hens : BWP.ensure_pyinstaller_installed eenv (initSt fs) with s1 | ⟨b, s1⟩
  · have := BWP.ensure_error_fs hens
    simp only [finalFS, this]
    rfl
  · have hfs1 : s1.fs = fs := BWP.ensure_ok_fs hens
    dsimp only
    rcases hb : BWP.build senv (BWP.clean s1) with t | ⟨op, s3⟩
    · have := (BWP.templateEntries_build hEff).2 t hb
      rw [BWP.templateEntries_clean, hfs1] at this
      cases t with
      | exited c st => simpa [finalFS, termFS] using this
      | raised st => simpa [finalFS, termFS] using this
    · obtain ⟨htE, hop⟩ := (BWP.templateEntries_build hEff).1 op s3 hb
      rw [BWP.templateEntries_clean, hfs1] at htE
      rcases hp : BWP.post_build op s3 with s4 | s5
      · have hpost := BWP.templateEntries_post_build (s := s3) hop
        rw [hp] at hpost
        simp only [seederFS] at hpost
        dsimp only
        rw [hp]
        show templateEntries s4.fs = templateEntries fs
        rw [hpost, htE]
      · have hpost := BWP.templateEntries_post_build (s := s3) hop
        rw [hp] at hpost
        simp only [seederFS] at hpost
        dsimp only
        rw [hp]
        show templateEntries s5.fs = templateEntries fs
        rw [hpost, htE]

theorem NB.nb_templateEntries_main {system : String} {fs : FS} {eenv : EnsureEnv}
    {senv : SubEnv}
    (hEff : ∀ g : FS, templateEntries (senv.effect g) = templateEntries g) :
    templateEntries (finalFS (NB.main system eenv senv (initSt fs))) =
      templateEntries fs := by
  unfold NB.main
  rcases hens : NB.ensure_nuitka_installed eenv (initSt fs) with s1 | ⟨b, s1⟩
  · have := NB.nb_ensure_error_fs hens
    simp only [finalFS, this]
    rfl
  · have hfs1 : s1.fs = fs := NB.nb_ensure_ok_fs hens
    dsimp only
    rcases hb : NB.build system senv (NB.clean s1) with t | s3
    · cases hx : decide (senv.exitCode = 0) with
      | true =>
        rw [NB.nb_build_ok_eq (of_decide_eq_true hx)] at hb
        cases hb
      | false =>
        rw [NB.nb_build_fail_eq (of_decide_eq_false hx)] at hb
        simp only [Except.error.injEq] at hb
        subst hb
        simp only [finalFS, termFS]
        rw [hEff, NB.nb_templateEntries_clean, hfs1]
    · cases hx : decide (senv.exitCode = 0) with
      | false =>
        rw [NB.nb_build_fail_eq (of_decide_eq_false hx)] at hb
        cases hb
      | true =>
        rw [NB.nb_build_ok_eq (of_decide_eq_true hx)] at hb
        simp only [Except.ok.injEq] at hb
        subst hb
        simp only [finalFS]
        rw [NB.nb_templateEntries_post_build]
        show templateEntries (senv.effect (NB.clean s1).fs) = _
        rw [hEff, NB.nb_templateEntries_clean, hfs1]

/-! ## Claim theorems -/

/-- C1: on a well-formed output root, `normalize_output_directory` probes the
bundle form `captain_cmd.app` first and, only when it is absent, the flat
form `captain_cmd`; the existing form is moved (every object below it is
relocated and none is left behind) to `main.app` resp. `main.dist`, after
anything occupying that target (file or directory) is removed; when neither
form exists it returns `none` and leaves the filesystem untouched. -/
theorem c1_output_normalizer (fs : FS) (wf : wellFormedFS fs) :
    (pathExistsB fs BWP.app_bundle_src = false →
      pathExistsB fs BWP.folder_src = false →
      BWP.normalize_output_directory fs = (none, fs)) ∧
    (pathExistsB fs BWP.app_bundle_src = true →
      (BWP.normalize_output_directory fs).1 = some BWP.app_target ∧
      ∀ e : Entry, e ∈ (BWP.normalize_output_directory fs).2 ↔
        (e ∈ fs ∧ ¬ BWP.app_target <+: e.path ∧ ¬ BWP.app_bundle_src <+: e.path) ∨
        (∃ e₀ ∈ fs, BWP.app_bundle_src <+: e₀.path ∧
          e = { e₀ with path := relocate BWP.app_bundle_src BWP.app_target e₀.path })) ∧
    (pathExistsB fs BWP.app_bundle_src = false →
      pathExistsB fs BWP.folder_src = true →
      (BWP.normalize_output_directory fs).1 = some BWP.folder_target ∧
      ∀ e : Entry, e ∈ (BWP.normalize_output_directory fs).2 ↔
        (e ∈ fs ∧ ¬ BWP.folder_target <+: e.path ∧ ¬ BWP.folder_src <+: e.path) ∨
        (∃ e₀ ∈ fs, BWP.folder_src <+: e₀.path ∧
          e = { e₀ with path := relocate BWP.folder_src BWP.folder_target e₀.path })) := by
  exact ⟨fun hb hf => BWP.normalize_none hb hf,
         fun hb => BWP.normalize_bundle wf hb,
         fun hb hf => BWP.normalize_flat wf hb hf⟩

/-- Witness for C1: on the concrete root `fsBundle` the bundle branch fires
and routes to `main.app`. -/
theorem c1_output_normalizer_witness :
    wellFormedFS fsBundle ∧ pathExistsB fsBundle BWP.app_bundle_src = true ∧
    (BWP.normalize_output_directory fsBundle).1 = some BWP.app_target :=
  ⟨by decide, by decide,
    ((c1_output_normalizer fsBundle (by decide)).2.1 (by decide)).1⟩

/-- C10: when both output forms exist, the normalizer moves only the bundle
(routing to `main.app`) and the flat `captain_cmd` folder survives untouched
at its original place: the subtree below it in the result is exactly the
subtree below it in the input. -/
theorem c10_both_forms_bundle_wins (fs : FS) (wf : wellFormedFS fs)
    (hb : pathExistsB fs BWP.app_bundle_src = true)
    (hf : pathExistsB fs BWP.folder_src = true) :
    (BWP.normalize_output_directory fs).1 = some BWP.app_target ∧
    pathExistsB (BWP.normalize_output_directory fs).2 BWP.folder_src = true ∧
    ∀ e : Entry, BWP.folder_src <+: e.path →
      (e ∈ (BWP.normalize_output_directory fs).2 ↔ e ∈ fs) := by
  have hmem : ∀ e : Entry, e ∈ (BWP.normalize_output_directory fs).2 ↔
      (e ∈ fs ∧ ¬ BWP.app_target <+: e.path ∧ ¬ BWP.app_bundle_src <+: e.path) ∨
      (∃ e₀ ∈ fs, BWP.app_bundle_src <+: e₀.path ∧
        e = { e₀ with path := relocate BWP.app_bundle_src BWP.app_target e₀.path }) := by
    intro e
    simp only [BWP.normalize_output_directory, hb, if_true]
    rw [replace_path_eq_rmtreeFS (by decide) wf]
    exact mem_move_rmtree
      (fun q => @no_common_extension BWP.app_bundle_src BWP.app_target q
        (by decide) (by decide))
  have huntouched : ∀ e : Entry, BWP.folder_src <+: e.path →
      (e ∈ (BWP.normalize_output_directory fs).2 ↔ e ∈ fs) := by
    intro e hpre
    rw [hmem e]
    constructor
    · rintro (⟨hfs, _, _⟩ | ⟨e₀, h0, hs, he⟩)
      · exact hfs
      · exfalso
        have htgt : BWP.app_target <+: e.path := by
          rw [he]
          exact ⟨e₀.path.drop BWP.app_bundle_src.length, rfl⟩
        exact @no_common_extension BWP.folder_src BWP.app_target e.path
          (by decide) (by decide) ⟨hpre, htgt⟩
    · intro hfs
      left
      refine ⟨hfs, ?_, ?_⟩
      · intro htgt
        exact @no_common_extension BWP.folder_src BWP.app_target e.path
          (by decide) (by decide) ⟨hpre, htgt⟩
      · intro hsrc
        exact @no_common_extension BWP.folder_src BWP.app_bundle_src e.path
          (by decide) (by decide) ⟨hpre, hsrc⟩
  refine ⟨by simp [BWP.normalize_output_directory, hb], ?_, huntouched⟩
  obtain ⟨e, he, hep⟩ := pathExistsB_iff.mp hf
  apply pathExistsB_iff.mpr
  refine ⟨e, ?_, hep⟩
  exact (huntouched e (by rw [hep])).mpr he

/-- C7: both cleaners are total (every removal failure is caught), a missing
path is skipped without error (a workspace without any of the enumerated
paths is left untouched), cleaning is idempotent on the filesystem, and after
one run of the PyInstaller cleaner none of its target paths exists any
more. -/
theorem c7_cleaner_idempotent :
    (∀ s : St, (∀ p ∈ BWP.cleanTargets, pathExistsB s.fs p = false) →
      (BWP.clean s).fs = s.fs) ∧
    (∀ s : St, (BWP.clean (BWP.clean s)).fs = (BWP.clean s).fs) ∧
    (∀ s : St, ∀ p ∈ BWP.cleanTargets, pathExistsB (BWP.clean s).fs p = false) ∧
    (∀ s : St, (∀ p ∈ NB.dirs_to_remove, pathExistsB s.fs p = false) →
      (NB.clean s).fs = s.fs) ∧
    (∀ s : St, (NB.clean (NB.clean s)).fs = (NB.clean s).fs) := by
  refine ⟨?_, ?_, ?_, ?_, ?_⟩
  · intro s h
    rw [BWP.clean_fs]
    exact BWP.foldl_cleanStepFS_id (fun p hp => goneAt_of_not_exists (h p hp))
  · intro s
    rw [BWP.clean_fs (BWP.clean s), BWP.clean_fs s]
    exact BWP.foldl_cleanStepFS_id (fun p hp => BWP.foldl_cleanStepFS_goneAt hp)
  · intro s p hp
    rw [BWP.clean_fs]
    exact not_exists_of_goneAt (BWP.foldl_cleanStepFS_goneAt hp)
  · intro s h
    rw [NB.nb_clean_fs]
    exact NB.nb_foldl_cleanStepFS_id
      (fun p hp => (goneAt_of_not_exists (h p hp)).1)
  · intro s
    rw [NB.nb_clean_fs (NB.clean s), NB.nb_clean_fs s]
    exact NB.nb_foldl_cleanStepFS_id (fun p hp => NB.foldl_cleanStepFS_noDir hp)

/-- Witness for C7: a workspace holding only the template is untouched by
the PyInstaller cleaner. -/
theorem c7_cleaner_idempotent_witness :
    (∀ p ∈ BWP.cleanTargets, pathExistsB (initSt fsTemplateOnly).fs p = false) ∧
    (BWP.clean (initSt fsTemplateOnly)).fs = (initSt fsTemplateOnly).fs :=
  ⟨by decide, c7_cleaner_idempotent.1 (initSt fsTemplateOnly) (by decide)⟩

/-- C8: the dependency ensurers first probe for the backend package and skip
installation when it resolves; only on an import failure do they invoke the
installer; and a failing installation propagates as an uncaught error that
terminates the run before any later stage (the trace stops at the ensurer
and the filesystem is untouched). -/
theorem c8_dependency_ensurer :
    (∀ (eenv : EnsureEnv) (s : St), eenv.installedAlready = true →
      BWP.ensure_pyinstaller_installed eenv s = .ok (false, tagStage .ensurer s)) ∧
    (∀ (eenv : EnsureEnv) (s : St), eenv.installedAlready = false →
      eenv.pipExitCode = 0 →
      BWP.ensure_pyinstaller_installed eenv s =
        .ok (true, logMsg "[*] PyInstaller not found. Installing..."
               (tagStage .ensurer s))) ∧
    (∀ (fs : FS) (eenv : EnsureEnv) (senv : SubEnv),
      eenv.installedAlready = false → eenv.pipExitCode ≠ 0 →
      BWP.main eenv senv (initSt fs) = .error (.raised
        ⟨fs, ["[*] PyInstaller not found. Installing..."], [Stage.ensurer]⟩)) ∧
    (∀ (eenv : EnsureEnv) (s : St), eenv.installedAlready = true →
      NB.ensure_nuitka_installed eenv s = .ok (false, tagStage .ensurer s)) ∧
    (∀ (eenv : EnsureEnv) (s : St), eenv.installedAlready = false →
      eenv.pipExitCode = 0 →
      NB.ensure_nuitka_installed eenv s =
        .ok (true, logMsg "[*] Nuitka not installed. Installing..."
               (tagStage .ensurer s))) ∧
    (∀ (system : String) (fs : FS) (eenv : EnsureEnv) (senv : SubEnv),
      eenv.installedAlready = false → eenv.pipExitCode ≠ 0 →
      NB.main system eenv senv (initSt fs) = .error (.raised
        ⟨fs, ["[*] Nuitka not installed. Installing..."], [Stage.ensurer]⟩)) := by
  refine ⟨?_, ?_, ?_, ?_, ?_, ?_⟩
  · intro eenv s h
    exact BWP.ensure_installed_eq s h
  · intro eenv s h1 h2
    exact BWP.ensure_install_ok_eq s h1 h2
  · intro fs eenv senv h1 h2
    unfold BWP.main
    rw [BWP.ensure_install_fail_eq (initSt fs) h1 h2]
    rfl
  · intro eenv s h
    exact NB.nb_ensure_installed_eq s h
  · intro eenv s h1 h2
    exact NB.nb_ensure_install_ok_eq s h1 h2
  · intro system fs eenv senv h1 h2
    unfold NB.main
    rw [NB.nb_ensure_install_fail_eq (initSt fs) h1 h2]
    rfl

/-- Witness for C8: with the package missing and a failing installer, the
PyInstaller script terminates with the ensurer as the only stage entered. -/
theorem c8_dependency_ensurer_witness :
    BWP.main ⟨false, 1⟩ ⟨0, effNothing⟩ (initSt fsTemplateOnly) = .error (.raised
      ⟨fsTemplateOnly, ["[*] PyInstaller not found. Installing..."],
       [Stage.ensurer]⟩) :=
  c8_dependency_ensurer.2.2.1 fsTemplateOnly ⟨false, 1⟩ ⟨0, effNothing⟩
    (by decide) (by decide)

/-- C2: in both pipelines a nonzero backend exit terminates the process via
`sys.exit 1` after printing an error line; the final filesystem is exactly
what the subprocess left behind (no normalization ran: the trace ends at the
invoker and no later stage touched the filesystem). -/
theorem c2_backend_failure_fatal :
    (∀ (fs : FS) (eenv : EnsureEnv) (senv : SubEnv),
      wellFormedFS fs → eenv.installedAlready = true → senv.exitCode ≠ 0 →
      BWP.main eenv senv (initSt fs) = .error (.exited 1
        ⟨senv.effect (BWP.preparedFS fs),
         (BWP.clean (tagStage .ensurer (initSt fs))).log ++
           ["[+] Starting PyInstaller build...",
            "[>] Command: " ++ String.intercalate " " BWP.cmd,
            "[ERROR] PyInstaller build failed."],
         [Stage.ensurer, Stage.cleaner, Stage.invoker]⟩)) ∧
    (∀ (system : String) (fs : FS) (eenv : EnsureEnv) (senv : SubEnv),
      eenv.installedAlready = true → senv.exitCode ≠ 0 →
      NB.main system eenv senv (initSt fs) = .error (.exited 1
        ⟨senv.effect (NB.dirs_to_remove.foldl NB.cleanStepFS fs),
         (NB.clean (tagStage .ensurer (initSt fs))).log ++
           ["[+] Starting Nuitka build...",
            "[*] Using Nuitka automatic import tracking (--follow-imports)",
            "    This will automatically detect and include all required packages",
            "[>] Command: " ++ String.intercalate " " (NB.cmd system),
            "[ERROR] Build failed!"],
         [Stage.ensurer, Stage.cleaner, Stage.invoker]⟩)) := by
  constructor
  · intro fs eenv senv wf hins hx
    unfold BWP.main
    rw [BWP.ensure_installed_eq _ hins]
    dsimp only
    have hfs : (BWP.clean (tagStage .ensurer (initSt fs))).fs =
        BWP.cleanTargets.foldl BWP.cleanStepFS fs := BWP.clean_fs _
    have h1 := (BWP.prepared_eq wf).1
    have h2 := (BWP.prepared_eq wf).2
    rw [← hfs] at h1 h2
    rw [BWP.build_fail_eq h1 h2 hx]
    rw [BWP.clean_trace]
    simp [initSt]
  · intro system fs eenv senv hins hx
    unfold NB.main
    rw [NB.nb_ensure_installed_eq _ hins]
    dsimp only
    rw [NB.nb_build_fail_eq hx]
    rw [NB.nb_clean_trace, NB.nb_clean_fs]
    simp [initSt]

/-- Witness for C2: a concrete failing PyInstaller subprocess yields exit
status 1 with the error line printed and the trace stopping at the
invoker. -/
theorem c2_backend_failure_fatal_witness :
    BWP.main ⟨true, 0⟩ ⟨1, effNothing⟩ (initSt fsTemplateOnly) = .error (.exited 1
      ⟨effNothing (BWP.preparedFS fsTemplateOnly),
       (BWP.clean (tagStage .ensurer (initSt fsTemplateOnly))).log ++
         ["[+] Starting PyInstaller build...",
          "[>] Command: " ++ String.intercalate " " BWP.cmd,
          "[ERROR] PyInstaller build failed."],
       [Stage.ensurer, Stage.cleaner, Stage.invoker]⟩) :=
  c2_backend_failure_fatal.1 fsTemplateOnly ⟨true, 0⟩ ⟨1, effNothing⟩
    (by decide) rfl (by decide)

/-- C3 (counterexample): on a concrete successful PyInstaller run the stages
are entered in the order Ensurer, Cleaner, Invoker, Normalizer, Seeder — not
in the claimed order with the Cleaner before the Dependency Ensurer. -/
theorem c3_stage_order_counterexample :
    finalTrace (BWP.main ⟨true, 0⟩ ⟨0, effFlat⟩ (initSt fsTemplateOnly)) ≠
      [Stage.cleaner, Stage.ensurer, Stage.invoker, Stage.normalizer,
       Stage.seeder] ∧
    finalTrace (BWP.main ⟨true, 0⟩ ⟨0, effFlat⟩ (initSt fsTemplateOnly)) =
      [Stage.ensurer, Stage.cleaner, Stage.invoker, Stage.normalizer,
       Stage.seeder] := by
  constructor
  · decide
  · decide

/-- C3 (amended): the stages of every completed run execute strictly
sequentially with no branching back, but the Dependency Ensurer runs first:
the PyInstaller pipeline enters Ensurer, Cleaner, Invoker, Normalizer,
Seeder, and the Nuitka pipeline — which has no separate normalization
stage — enters Ensurer, Cleaner, Invoker, Seeder. -/
theorem c3_stage_order :
    (∀ (eenv : EnsureEnv) (senv : SubEnv) (fs : FS) (s' : St),
      BWP.main eenv senv (initSt fs) = .ok s' →
      s'.trace = [Stage.ensurer, Stage.cleaner, Stage.invoker,
                  Stage.normalizer, Stage.seeder]) ∧
    (∀ (system : String) (eenv : EnsureEnv) (senv : SubEnv) (fs : FS) (s' : St),
      NB.main system eenv senv (initSt fs) = .ok s' →
      s'.trace = [Stage.ensurer, Stage.cleaner, Stage.invoker, Stage.seeder]) := by
  constructor
  · intro eenv senv fs s' h
    unfold BWP.main at h
    split at h
    · cases h
    next b s₁ heq1 =>
      dsimp only at h
      split at h
      · cases h
      next op s₃ heq2 =>
        split at h
        · cases h
        next s₅ heq3 =>
          simp only [Except.ok.injEq] at h
          subst h
          have t1 : s₁.trace = [Stage.ensurer] := by
            have := BWP.ensure_ok_trace heq1
            simpa [initSt] using this
          have t2 : (BWP.clean s₁).trace = [Stage.ensurer, Stage.cleaner] := by
            rw [BWP.clean_trace, t1]
            rfl
          have t3 : s₃.trace = [Stage.ensurer, Stage.cleaner, Stage.invoker,
              Stage.normalizer] := by
            rw [BWP.build_ok_trace heq2, t2]
            rfl
          rw [BWP.post_build_ok_trace heq3, t3]
          rfl
  · intro system eenv senv fs s' h
    unfold NB.main at h
    split at h
    · cases h
    next b s₁ heq1 =>
      dsimp only at h
      split at h
      · cases h
      next s₃ heq2 =>
        simp only [Except.ok.injEq] at h
        subst h
        have t1 : s₁.trace = [Stage.ensurer] := by
          have := NB.nb_ensure_ok_trace heq1
          simpa [initSt] using this
        have t2 : (NB.clean s₁).trace = [Stage.ensurer, Stage.cleaner] := by
          rw [NB.nb_clean_trace, t1]
          rfl
        have t3 : s₃.trace = [Stage.ensurer, Stage.cleaner, Stage.invoker] := by
          rw [NB.nb_build_ok_trace heq2, t2]
          rfl
        rw [NB.post_build_trace, t3]
        rfl

/-- Witness for C3: the amended order realized on a concrete successful
Nuitka run. -/
theorem c3_stage_order_witness :
    okTrace (NB.main "Linux" ⟨true, 0⟩ ⟨0, effDist⟩ (initSt fsTemplateOnly)) =
      some [Stage.ensurer, Stage.cleaner, Stage.invoker, Stage.seeder] := by
  have hok : isOkRun (NB.main "Linux" ⟨true, 0⟩ ⟨0, effDist⟩
      (initSt fsTemplateOnly)) = true := by decide
  cases hrun : NB.main "Linux" ⟨true, 0⟩ ⟨0, effDist⟩ (initSt fsTemplateOnly) with
  | error t =>
    rw [hrun] at hok
    simp [isOkRun] at hok
  | ok s' =>
    have := c3_stage_order.2 "Linux" ⟨true, 0⟩ ⟨0, effDist⟩ fsTemplateOnly s' hrun
    simp [okTrace, hrun, this]

/-- C5 (counterexample): on a concrete workspace where the expected Nuitka
output `.build/main.dist` is absent, `post_build` prints the warning but then
still copies the configuration template, to `.build/config.toml` — the
config-seeding step is not skipped. -/
theorem c5_normalization_miss_counterexample :
    pathExistsB fsBuildOnly NB.dist_dir0 = false ∧
    (("    [WARNING] Dist directory " ++ showPath NB.dist_dir0
        ++ " not found. Did the build fail or using onefile mode?")
      ∈ (NB.post_build (initSt fsBuildOnly)).log) ∧
    pathExistsB (NB.post_build (initSt fsBuildOnly)).fs
      [".build", "config.toml"] = true := by
  refine ⟨by decide, by decide, by decide⟩

/-- C5 (amended): on a normalization miss the PyInstaller pipeline warns and
skips the seeding step entirely (the filesystem is untouched and nothing is
raised); the Nuitka pipeline warns but falls back to the output root
`.build` and still copies the configuration file there. -/
theorem c5_normalization_miss :
    (∀ s : St, BWP.post_build none s =
      .ok (logMsg "[WARNING] Dist directory missing, skip post-build tasks."
             (tagStage .seeder s))) ∧
    (∀ (s : St) (p : Path), pathExistsB s.fs p = false →
      BWP.post_build (some p) s =
        .ok (logMsg "[WARNING] Dist directory missing, skip post-build tasks."
               (tagStage .seeder s))) ∧
    (∀ s : St,
      pathExistsB s.fs NB.dist_dir0 = false →
      isFileFS s.fs NB.possible_configs = true →
      isDirFS s.fs [".build"] = true →
      isDirFS s.fs [".build", "config.toml"] = false →
      (("    [WARNING] Dist directory " ++ showPath NB.dist_dir0
          ++ " not found. Did the build fail or using onefile mode?")
        ∈ (NB.post_build s).log) ∧
      pathExistsB (NB.post_build s).fs [".build", "config.toml"] = true) := by
  refine ⟨?_, ?_, ?_⟩
  · intro s
    exact BWP.post_build_none_eq s
  · intro s p h
    exact BWP.post_build_missing_eq h
  · intro s hmiss htpl hbdir hncfg
    have htex : pathExistsB s.fs NB.possible_configs = true :=
      pathExistsB_of_isFileFS htpl
    obtain ⟨t, ht, htp, htd⟩ := isFileFS_iff.mp htpl
    unfold NB.post_build
    simp only [logMsg_fs, tagStage_fs, hmiss, Bool.false_eq_true, if_false]
    simp only [logMsg_fs, tagStage_fs, htex, if_true]
    rcases hfind : s.fs.find? (fun e => e.path == NB.possible_configs && !e.isDir)
      with - | e
    · exfalso
      have := List.find?_eq_none.mp hfind t ht
      simp [htp, htd] at this
    · have hcopy : copy2FS NB.possible_configs ([".build"] ++ ["config.toml"]) s.fs =
          .ok (writeFileFS ([".build"] ++ ["config.toml"]) e.content s.fs) := by
        unfold copy2FS
        rw [hfind]
        have hnd : isDirFS s.fs ([".build"] ++ ["config.toml"]) = false := hncfg
        rw [hnd]
        by_cases hf : isFileFS s.fs ([".build"] ++ ["config.toml"]) = true
        · simp [hf]
          exact fun _ => hbdir
        · have hf' : isFileFS s.fs ([".build"] ++ ["config.toml"]) = false :=
            Bool.eq_false_iff.mpr hf
          have hpar : isDirFS s.fs ([".build"] ++ ["config.toml"]).dropLast = true := by
            simpa using hbdir
          simp [hf', hpar]
          exact fun _ => hbdir
      rw [hcopy]
      constructor
      · simp
      · simp [writeFileFS, pathExistsB, List.any_append]

/-- Witness for C5: the amended Nuitka behavior realized on the concrete
workspace `fsBuildOnly`. -/
theorem c5_normalization_miss_witness :
    (("    [WARNING] Dist directory " ++ showPath NB.dist_dir0
        ++ " not found. Did the build fail or using onefile mode?")
      ∈ (NB.post_build (initSt fsBuildOnly)).log) ∧
    pathExistsB (NB.post_build (initSt fsBuildOnly)).fs
      [".build", "config.toml"] = true :=
  c5_normalization_miss.2.2 (initSt fsBuildOnly)
    (by decide) (by decide) (by decide) (by decide)

/-- C4 (counterexample): on a concrete artifact that is a bundle (its path
ends in `.app`) but lacks a `Contents/MacOS` directory, the PyInstaller
seeder places `config.toml` at the top of the bundle, not inside the nested
platform-specific resource path. -/
theorem c4_config_seeder_counterexample :
    endsWithDotApp (([".build", "main.app"] : Path).getLastD "") = true ∧
    pathExistsB (seederFS (BWP.post_build (some [".build", "main.app"])
        (initSt fsAppNoMacos))) [".build", "main.app", "config.toml"] = true ∧
    pathExistsB (seederFS (BWP.post_build (some [".build", "main.app"])
        (initSt fsAppNoMacos)))
      [".build", "main.app", "Contents", "MacOS", "config.toml"] = false := by
  refine ⟨by decide, by decide, by decide⟩

/-- C4 (amended): only the PyInstaller seeder detects the output form, and
the nested placement additionally requires the nested directory to exist:
when the artifact path ends in `.app` and `Contents/MacOS` exists inside it,
the configuration file is copied there; in every other case (flat folder, or
bundle without an existing `Contents/MacOS`) it is copied directly to the
top of the artifact.  The Nuitka seeder performs no detection and always
copies beside the executable in `.build/main.dist`. -/
theorem c4_config_seeder_placement :
    (∀ (s s' : St) (p : Path),
      pathExistsB s.fs p = true →
      pathExistsB s.fs BWP.config_template = true →
      (endsWithDotApp (p.getLastD "")
        && pathExistsB s.fs (p ++ ["Contents", "MacOS"])) = true →
      BWP.post_build (some p) s = .ok s' →
      ("    Copied template " ++ showPath BWP.config_template ++ " to "
        ++ showPath (p ++ ["Contents", "MacOS", "config.toml"])) ∈ s'.log) ∧
    (∀ (s s' : St) (p : Path),
      pathExistsB s.fs p = true →
      pathExistsB s.fs BWP.config_template = true →
      (endsWithDotApp (p.getLastD "")
        && pathExistsB s.fs (p ++ ["Contents", "MacOS"])) = false →
      BWP.post_build (some p) s = .ok s' →
      ("    Copied template " ++ showPath BWP.config_template ++ " to "
        ++ showPath (p ++ ["config.toml"])) ∈ s'.log) ∧
    (∀ (s : St) (g : FS),
      pathExistsB s.fs NB.dist_dir0 = true →
      pathExistsB s.fs NB.possible_configs = true →
      copy2FS NB.possible_configs (NB.dist_dir0 ++ ["config.toml"]) s.fs = .ok g →
      ("    Copied template " ++ showPath NB.possible_configs ++ " to "
        ++ showPath (NB.dist_dir0 ++ ["config.toml"])) ∈ (NB.post_build s).log ∧
      (NB.post_build s).fs = g) := by
  refine ⟨?_, ?_, ?_⟩
  · intro s s' p hd ht happ h
    unfold BWP.post_build at h
    dsimp only at h
    simp only [logMsg_fs, tagStage_fs, hd, ht, happ, Bool.not_true,
      Bool.false_eq_true, if_false, if_true] at h
    split at h
    · cases h
    · split at h
      · cases h
      · simp only [Except.ok.injEq] at h
        subst h
        have : p ++ ["Contents", "MacOS"] ++ ["config.toml"] =
            p ++ ["Contents", "MacOS", "config.toml"] := by simp
        simp [this]
  · intro s s' p hd ht happ h
    unfold BWP.post_build at h
    dsimp only at h
    simp only [logMsg_fs, tagStage_fs, hd, ht, happ, Bool.not_true,
      Bool.false_eq_true, if_false, if_true] at h
    split at h
    · cases h
    · split at h
      · cases h
      · simp only [Except.ok.injEq] at h
        subst h
        simp
  · intro s g hd ht hcopy
    unfold NB.post_build
    dsimp only
    simp only [logMsg_fs, tagStage_fs, hd, ht, if_true]
    rw [hcopy]
    constructor
    · simp
    · simp

/-- Witness for C4: the nested placement realized on a concrete bundle that
does contain `Contents/MacOS`. -/
theorem c4_config_seeder_placement_witness :
    ("    Copied template " ++ showPath BWP.config_template ++ " to "
      ++ showPath ([".build", "main.app"] ++ ["Contents", "MacOS", "config.toml"]))
      ∈ seederLog (BWP.post_build (some [".build", "main.app"])
          (initSt fsAppWithMacos)) := by
  have hok : seederIsOk (BWP.post_build (some [".build", "main.app"])
      (initSt fsAppWithMacos)) = true := by decide
  cases hrun : BWP.post_build (some [".build", "main.app"]) (initSt fsAppWithMacos) with
  | error s' =>
    rw [hrun] at hok
    simp [seederIsOk] at hok
  | ok s' =>
    have := c4_config_seeder_placement.1 (initSt fsAppWithMacos) s'
      [".build", "main.app"] (by decide) (by decide) (by decide) hrun
    simpa [seederLog, hrun] using this

/-- C6: when the template configuration file is absent but the build itself
succeeds, both pipelines still complete normally (exit status 0), the
normalized artifact directory exists, the template-missing warning is
printed, and no `config.toml` file exists anywhere in the final filesystem —
in particular not inside the artifact.  (For the PyInstaller pipeline the
backend is assumed to have produced the flat output form and a well-formed
tree; for the Nuitka pipeline the final filesystem is exactly what the
backend left.) -/
theorem c6_missing_template :
    (∀ (fs : FS) (eenv : EnsureEnv) (senv : SubEnv),
      eenv.installedAlready = true →
      senv.exitCode = 0 →
      wellFormedFS fs →
      wellFormedFS (senv.effect (BWP.preparedFS fs)) →
      pathExistsB (senv.effect (BWP.preparedFS fs)) BWP.config_template = false →
      pathExistsB (senv.effect (BWP.preparedFS fs)) BWP.app_bundle_src = false →
      pathExistsB (senv.effect (BWP.preparedFS fs)) BWP.folder_src = true →
      (∀ e ∈ senv.effect (BWP.preparedFS fs),
        e.path.getLastD "" ≠ "config.toml") →
      isOkRun (BWP.main eenv senv (initSt fs)) = true ∧
      pathExistsB (finalFS (BWP.main eenv senv (initSt fs)))
        BWP.folder_target = true ∧
      (("    [WARNING] Template file not found: " ++ showPath BWP.config_template)
        ∈ finalLog (BWP.main eenv senv (initSt fs))) ∧
      (∀ e ∈ finalFS (BWP.main eenv senv (initSt fs)),
        e.path.getLastD "" ≠ "config.toml")) ∧
    (∀ (system : String) (fs : FS) (eenv : EnsureEnv) (senv : SubEnv),
      eenv.installedAlready = true →
      senv.exitCode = 0 →
      pathExistsB (senv.effect (NB.dirs_to_remove.foldl NB.cleanStepFS fs))
        NB.possible_configs = false →
      isOkRun (NB.main system eenv senv (initSt fs)) = true ∧
      finalFS (NB.main system eenv senv (initSt fs)) =
        senv.effect (NB.dirs_to_remove.foldl NB.cleanStepFS fs) ∧
      (("    [WARNING] No example config file found: "
          ++ showPath NB.possible_configs)
        ∈ finalLog (NB.main system eenv senv (initSt fs)))) := by
  constructor
  · intro fs eenv senv hins hx0 wf wfF hT hnoapp hart hNoCfg
    unfold BWP.main
    rw [BWP.ensure_installed_eq _ hins]
    dsimp only
    have hfs : (BWP.clean (tagStage .ensurer (initSt fs))).fs =
        BWP.cleanTargets.foldl BWP.cleanStepFS fs := BWP.clean_fs _
    have h1 := (BWP.prepared_eq wf).1
    have h2 := (BWP.prepared_eq wf).2
    rw [← hfs] at h1 h2
    rw [BWP.build_ok_eq h1 h2 hx0]
    have hflat := BWP.normalize_flat wfF hnoapp hart
    rcases hn : BWP.normalize_output_directory (senv.effect (BWP.preparedFS fs))
      with ⟨np, nfs⟩
    rw [hn] at hflat
    obtain ⟨hnp, hmem⟩ := hflat
    have hnp2 : np = some BWP.folder_target := hnp
    subst hnp2
    have hart' : pathExistsB nfs BWP.folder_target = true := by
      obtain ⟨e₀, he₀, hp₀⟩ := pathExistsB_iff.mp hart
      apply pathExistsB_iff.mpr
      refine ⟨⟨relocate BWP.folder_src BWP.folder_target e₀.path,
        e₀.isDir, e₀.content⟩, ?_, ?_⟩
      · exact (hmem _).mpr (Or.inr ⟨e₀, he₀,
          ⟨by rw [hp₀], rfl⟩⟩)
      · rw [hp₀]
        rfl
    have hT' : pathExistsB nfs BWP.config_template = false := by
      cases hc : pathExistsB nfs BWP.config_template with
      | false => rfl
      | true =>
        obtain ⟨e, he, hp⟩ := pathExistsB_iff.mp hc
        rcases (hmem e).mp he with ⟨hef, -, -⟩ | ⟨e₀, he₀, hs, hrel⟩
        · exact absurd (pathExistsB_iff.mpr ⟨e, hef, hp⟩) (by simp [hT])
        · subst hrel
          have hlen := congrArg List.length hp
          simp only [relocate, BWP.folder_target, BWP.OUTPUT_DIR,
            BWP.config_template, List.length_append, List.singleton_append,
            List.length_cons, List.length_nil] at hlen
          omega
    have hNoCfg' : ∀ e ∈ nfs, e.path.getLastD "" ≠ "config.toml" := by
      intro e he
      rcases (hmem e).mp he with ⟨hef, -, -⟩ | ⟨e₀, he₀, hs, hrel⟩
      · exact hNoCfg e hef
      · subst hrel
        rcases @relocate_last BWP.folder_src BWP.folder_target e₀.path hs with hdst | hlast
        · show (relocate BWP.folder_src BWP.folder_target e₀.path).getLastD ""
            ≠ "config.toml"
          rw [hdst]
          decide
        · show (relocate BWP.folder_src BWP.folder_target e₀.path).getLastD ""
            ≠ "config.toml"
          rw [hlast]
          exact hNoCfg e₀ he₀
    dsimp only
    rw [BWP.post_build_noTemplate_eq hart' hT']
    refine ⟨rfl, hart', by simp [finalLog], hNoCfg'⟩
  · intro system fs eenv senv hins hx0 hT
    unfold NB.main
    rw [NB.nb_ensure_installed_eq _ hins]
    dsimp only
    rw [NB.nb_build_ok_eq hx0]
    dsimp only
    have hcfs : (NB.clean (tagStage .ensurer (initSt fs))).fs =
        NB.dirs_to_remove.foldl NB.cleanStepFS fs := NB.nb_clean_fs _
    rw [hcfs]
    have hpost := NB.post_build_noTemplate (s :=
      ⟨senv.effect (NB.dirs_to_remove.foldl NB.cleanStepFS fs),
       (NB.clean (tagStage .ensurer (initSt fs))).log ++
         ["[+] Starting Nuitka build...",
          "[*] Using Nuitka automatic import tracking (--follow-imports)",
          "    This will automatically detect and include all required packages",
          "[>] Command: " ++ String.intercalate " " (NB.cmd system),
          "[SUCCESS] Build finished successfully!"],
       (NB.clean (tagStage .ensurer (initSt fs))).trace ++ [Stage.invoker]⟩) hT
    exact ⟨rfl, hpost.1, hpost.2⟩

/-- Witness for C6: a successful flat-form PyInstaller run from an empty
workspace with no template: exit status 0, the artifact exists, and the
warning is printed. -/
theorem c6_missing_template_witness :
    isOkRun (BWP.main ⟨true, 0⟩ ⟨0, effFlat⟩ (initSt ([] : FS))) = true ∧
    pathExistsB (finalFS (BWP.main ⟨true, 0⟩ ⟨0, effFlat⟩ (initSt ([] : FS))))
      BWP.folder_target = true ∧
    (("    [WARNING] Template file not found: " ++ showPath BWP.config_template)
      ∈ finalLog (BWP.main ⟨true, 0⟩ ⟨0, effFlat⟩ (initSt ([] : FS)))) := by
  have h := c6_missing_template.1 [] ⟨true, 0⟩ ⟨0, effFlat⟩ rfl rfl
    (by decide) (by decide) (by decide) (by decide) (by decide) (by decide)
  exact ⟨h.1, h.2.1, h.2.2.1⟩

/-- C9: the source template `config.example.toml` is read-only input: each
stage of either pipeline (cleaner, normalizer, seeder as the pipeline
invokes it) leaves the set of objects at its path untouched, and a whole run
of either pipeline — succeeding or failing in any way — preserves it as
well, provided the backend subprocess itself does (its effect is the
parameter `senv.effect`). -/
theorem c9_template_read_only :
    (∀ s : St, templateEntries (BWP.clean s).fs = templateEntries s.fs) ∧
    (∀ fs : FS,
      templateEntries (BWP.normalize_output_directory fs).2 = templateEntries fs) ∧
    (∀ (s : St) (d : Option Path),
      (d = none ∨ d = some BWP.app_target ∨ d = some BWP.folder_target) →
      templateEntries (seederFS (BWP.post_build d s)) = templateEntries s.fs) ∧
    (∀ s : St, templateEntries (NB.clean s).fs = templateEntries s.fs) ∧
    (∀ s : St, templateEntries (NB.post_build s).fs = templateEntries s.fs) ∧
    (∀ (fs : FS) (eenv : EnsureEnv) (senv : SubEnv),
      (∀ g : FS, templateEntries (senv.effect g) = templateEntries g) →
      templateEntries (finalFS (BWP.main eenv senv (initSt fs))) =
        templateEntries fs) ∧
    (∀ (system : String) (fs : FS) (eenv : EnsureEnv) (senv : SubEnv),
      (∀ g : FS, templateEntries (senv.effect g) = templateEntries g) →
      templateEntries (finalFS (NB.main system eenv senv (initSt fs))) =
        templateEntries fs) :=
  ⟨BWP.templateEntries_clean,
   BWP.templateEntries_normalize,
   fun _ _ hd => BWP.templateEntries_post_build hd,
   NB.nb_templateEntries_clean,
   NB.nb_templateEntries_post_build,
   fun _ _ _ hEff => BWP.templateEntries_main hEff,
   fun _ _ _ _ hEff => NB.nb_templateEntries_main hEff⟩

/-- Witness for C9: a concrete successful PyInstaller run (flat output form)
leaves the template file untouched. -/
theorem c9_template_read_only_witness :
    templateEntries (finalFS (BWP.main ⟨true, 0⟩ ⟨0, effFlat⟩
      (initSt fsTemplateOnly))) = templateEntries fsTemplateOnly :=
  c9_template_read_only.2.2.2.2.2.1 fsTemplateOnly ⟨true, 0⟩ ⟨0, effFlat⟩
    (fun g => templateEntries_append (by decide))

/-- Witness for C10: on `fsBundle` (which holds both forms) the result is
`main.app` and the flat folder still exists afterwards. -/
theorem c10_both_forms_bundle_wins_witness :
    (BWP.normalize_output_directory fsBundle).1 = some BWP.app_target ∧
    pathExistsB (BWP.normalize_output_directory fsBundle).2 BWP.folder_src = true :=
  ⟨(c10_both_forms_bundle_wins fsBundle (by decide) (by decide) (by decide)).1,
   (c10_both_forms_bundle_wins fsBundle (by decide) (by decide) (by decide)).2.1⟩

end CaptainBuild
